import Mathlib

/-!
# Image preprocessing pipeline: embedding and verification

A shallow embedding of the `image_preprocessing` sources (`preprocessing_functions.cpp`,
`image.cpp`, `data_loader.cpp`).

* C++ exceptions are values of `Error`; a method that can throw after it has already
  mutated its object returns the mutated object next to the `Except` result.
* `int` is `Int`; conversions to `int` and the 4-byte fields of the binary file go through
  `bits_of_int` / `int_of_bits` (two's complement, modulo `2^32`).
* `float` is the 32-bit pattern of the value, so that writing a float to a file and
  reading it back is exact.
* OpenCV is the library boundary: the header of every matrix (rows, columns, depth,
  channels) and the failure conditions of each primitive follow the OpenCV reference,
  the pixel payload computed by a primitive is a field of `Cv`.
-/

namespace ImgPre

/-! ## Machine values -/

/-- Four bytes of memory or of a binary file. -/
abbrev Word := Fin 4294967296

/-- A C++ `float`, represented by its bit pattern. -/
abbrev float := Word

/-- A C++ `double`, represented by its bit pattern. -/
abbrev double := Fin 18446744073709551616

/-- The four bytes of an `int` (two's complement). -/
def bits_of_int (i : Int) : Word :=
  ⟨(i % 4294967296).toNat, by
    have h1 := Int.emod_nonneg i (by decide : (4294967296 : Int) ≠ 0)
    have h2 := Int.emod_lt_of_pos i (by decide : (0 : Int) < 4294967296)
    omega⟩

/-- The `int` stored in four bytes (two's complement). -/
def int_of_bits (w : Word) : Int :=
  if w.val < 2147483648 then (w.val : Int) else (w.val : Int) - 4294967296

/-- Conversion `static_cast<int>(x)` of an integral value to a 32-bit `int`. -/
def static_cast_int (x : Int) : Int := int_of_bits (bits_of_int x)

/-- Exceptions and fatal faults that leave a call without a result. -/
inductive Error where
  /-- A `std::invalid_argument` with its message. -/
  | invalid_argument (what : String)
  /-- A `cv::Exception`, raised by a failed assertion inside an OpenCV primitive. -/
  | cv_exception
  /-- Dereference of an empty smart pointer or an out-of-range `operator[]`. -/
  | null_pointer
  /-- A `std::length_error`, raised by `vector::resize` with an impossible size. -/
  | length_error
  deriving DecidableEq, Repr

deriving instance DecidableEq for Except

/-! ## OpenCV matrices -/

/-- Element depth of a `cv::Mat`. -/
inductive Depth where
  | CV_8U | CV_8S | CV_16U | CV_16S | CV_32S | CV_32F | CV_64F
  deriving DecidableEq, Repr

/-- A `cv::Mat`: header and raw element storage (row-major, channels interleaved). -/
structure Mat where
  rows : Nat
  cols : Nat
  depth : Depth
  channels : Nat
  data : List Nat
  deriving DecidableEq, Repr

/-- The default-constructed matrix `Mat()`. -/
def Mat.nil : Mat := { rows := 0, cols := 0, depth := Depth.CV_8U, channels := 1, data := [] }

/-- The number of pixels `Mat::total()`. -/
def Mat.total (m : Mat) : Nat := m.rows * m.cols

/-- The test `Mat::empty()`. -/
def Mat.empty (m : Mat) : Bool := decide (m.total = 0)

/-- The test `m.type() == CV_8U` (`CV_8U` is the one-channel 8-bit type). -/
def Mat.is_CV_8U (m : Mat) : Bool := decide (m.depth = Depth.CV_8U ∧ m.channels = 1)

/-- The test `m.type() == CV_32F` (`CV_32F` is the one-channel float type). -/
def Mat.is_CV_32F (m : Mat) : Bool := decide (m.depth = Depth.CV_32F ∧ m.channels = 1)

def CV_LOAD_IMAGE_UNCHANGED : Int := -1
def CV_LOAD_IMAGE_GRAYSCALE : Int := 0
def CV_LOAD_IMAGE_COLOR : Int := 1

def CV_BGR2GRAY : Nat := 6
def CV_BGR2YUV : Nat := 82

/-- Enum `FilterType`; the enumerators carry character codes and `main` casts arbitrary
characters to it. -/
abbrev FilterType := Char

def gaussian : FilterType := 'g'
def sobel : FilterType := 's'
def median : FilterType := 'm'

/-- Struct `Chrominances`. -/
structure Chrominances where
  u : Mat
  v : Mat
  deriving DecidableEq, Repr

/-- Struct `YuvImage`. -/
structure YuvImage where
  luminance : Mat
  chrominances : Chrominances
  deriving DecidableEq, Repr

/-- A `cv::PCA` basis. -/
structure PCA where
  mean : Mat
  eigenvectors : Mat
  eigenvalues : Mat
  deriving DecidableEq, Repr

/-- The default-constructed `cv::PCA`. -/
def PCA.nil : PCA := { mean := Mat.nil, eigenvectors := Mat.nil, eigenvalues := Mat.nil }

/-- Pixel kernels of the OpenCV primitives and the engine of `std::shuffle`. Each kernel
returns the element storage of the result; rows, columns, depth, channels and failures
are fixed by the wrappers below. -/
structure Cv where
  cvtColor_px : Nat → Mat → List Nat
  split_px : Mat → Nat → List Nat
  resize_px : Mat → Nat → Nat → List Nat
  Sobel_px : Mat → Nat → Nat → List Nat
  convertScaleAbs_px : Mat → List Nat
  addWeighted_px : Mat → Mat → List Nat
  medianBlur_px : Mat → Nat → List Nat
  GaussianBlur_px : Mat → List Nat
  subtract_mean_px : Mat → List Nat
  subtract_from_px : Nat → Mat → List Nat
  convertTo_px : Mat → Depth → List Nat
  divide_px : Mat → Nat → List Nat
  /-- The float found at `m.ptr<float>(i)[k]`. -/
  at_float : Mat → Nat → Nat → float
  project_px : PCA → Mat → List Nat
  /-- The call `pca(data, Mat(), PCA::DATA_AS_ROW, max_components)`. -/
  pca_fit : Mat → Int → Except Error PCA
  /-- The permutation `std::shuffle` applies to `n` elements with a default-constructed
  `default_random_engine`. -/
  shuffle_perm : (n : Nat) → Equiv.Perm (Fin n)
  /-- The pair `(min, max)` that `minMaxLoc(m, &min, &max)` stores. -/
  minMaxLoc : Mat → double × double
  /-- The elements of `m -= s` for a scalar `s`. -/
  subtract_scalar_px : Mat → double → List Nat
  /-- The elements of `m.mul(s)` for a scalar `s`. -/
  multiply_scalar_px : Mat → double → List Nat
  /-- Subtraction of two `double` values. -/
  double_sub : double → double → double
  /-- The quotient `255 / d` of the `int` 255 by a `double`. -/
  double_255_over : double → double

/-- Rounding `cvRound(n * 0.5)` (round to nearest, ties to even), as used by `resize`. -/
def cvRound_half (n : Nat) : Nat :=
  if n % 2 = 0 then n / 2 else if (n / 2) % 2 = 0 then n / 2 else n / 2 + 1

/-- Call `cvtColor(src, dst, code)` for `CV_BGR2YUV` and `CV_BGR2GRAY`: the source must
have 3 or 4 channels and depth 8U, 16U or 32F, otherwise the assertion inside OpenCV
raises a `cv::Exception`. -/
def cvtColor (cv : Cv) (src : Mat) (code : Nat) : Except Error Mat :=
  if (src.channels = 3 ∨ src.channels = 4) ∧
      (src.depth = Depth.CV_8U ∨ src.depth = Depth.CV_16U ∨ src.depth = Depth.CV_32F) then
    .ok { src with channels := if code = CV_BGR2GRAY then 1 else 3, data := cv.cvtColor_px code src }
  else .error Error.cv_exception

/-- Plane `k` produced by `split`. -/
def split (cv : Cv) (src : Mat) (k : Nat) : Mat :=
  { src with channels := 1, data := cv.split_px src k }

/-- Call `resize(src, dst, {0, 0}, 0.5, 0.5)`: the destination size is
`(cvRound(cols * 0.5), cvRound(rows * 0.5))` and must have positive area. -/
def resize_half (cv : Cv) (src : Mat) : Except Error Mat :=
  if src.rows = 0 ∨ src.cols = 0 then .error Error.cv_exception
  else if cvRound_half src.rows = 0 ∨ cvRound_half src.cols = 0 then .error Error.cv_exception
  else .ok { src with rows := cvRound_half src.rows, cols := cvRound_half src.cols,
                      data := cv.resize_px src (cvRound_half src.rows) (cvRound_half src.cols) }

/-- Call `Sobel(src, dst, CV_32F, dx, dy, 3)`. -/
def Sobel (cv : Cv) (src : Mat) (dx dy : Nat) : Except Error Mat :=
  if src.depth = Depth.CV_8U ∨ src.depth = Depth.CV_16U ∨ src.depth = Depth.CV_16S
      ∨ src.depth = Depth.CV_32F then
    .ok { src with depth := Depth.CV_32F, data := cv.Sobel_px src dx dy }
  else .error Error.cv_exception

/-- Call `convertScaleAbs(src, dst)`. -/
def convertScaleAbs (cv : Cv) (src : Mat) : Mat :=
  { src with depth := Depth.CV_8U, data := cv.convertScaleAbs_px src }

/-- Call `addWeighted(src1, 0.5, src2, 0.5, 0, dst)`. -/
def addWeighted (cv : Cv) (src1 src2 : Mat) : Except Error Mat :=
  if src1.rows = src2.rows ∧ src1.cols = src2.cols ∧ src1.channels = src2.channels
      ∧ src1.depth = src2.depth then
    .ok { src1 with data := cv.addWeighted_px src1 src2 }
  else .error Error.cv_exception

/-- Call `medianBlur(src, dst, ksize)` for `ksize` 3 or 5. -/
def medianBlur (cv : Cv) (src : Mat) (ksize : Nat) : Except Error Mat :=
  if (src.depth = Depth.CV_8U ∨ src.depth = Depth.CV_16U ∨ src.depth = Depth.CV_32F) ∧
      (src.channels = 1 ∨ src.channels = 3 ∨ src.channels = 4) then
    .ok { src with data := cv.medianBlur_px src ksize }
  else .error Error.cv_exception

/-- Call `GaussianBlur(src, dst, Size(5, 5), 0, 0)`. -/
def GaussianBlur (cv : Cv) (src : Mat) : Except Error Mat :=
  if src.depth = Depth.CV_8S ∨ src.depth = Depth.CV_32S then .error Error.cv_exception
  else .ok { src with data := cv.GaussianBlur_px src }

/-- Method `Mat::reshape(1, 1)`: one channel, one row. -/
def Mat.reshape_1_1 (m : Mat) : Mat :=
  { m with rows := 1, cols := m.rows * m.cols * m.channels, channels := 1 }

/-- Method `Mat::push_back(elem)`: an empty matrix becomes a copy of `elem`, otherwise type
and column count must agree. -/
def Mat.push_back (m elem : Mat) : Except Error Mat :=
  if elem.rows = 0 then .ok m
  else if m.empty then .ok elem
  else if m.depth = elem.depth ∧ m.channels = elem.channels ∧ m.cols = elem.cols then
    .ok { m with rows := m.rows + elem.rows, data := m.data ++ elem.data }
  else .error Error.cv_exception

/-- Method `PCA::project(vec)`. -/
def PCA.project (cv : Cv) (p : PCA) (vec : Mat) : Except Error Mat :=
  if p.mean.empty ∨ p.eigenvectors.empty then .error Error.cv_exception
  else if p.mean.rows = 1 ∧ p.mean.cols = vec.cols then
    .ok { rows := vec.rows, cols := p.eigenvectors.rows, depth := p.mean.depth, channels := 1,
          data := cv.project_px p vec }
  else if p.mean.cols = 1 ∧ p.mean.rows = vec.rows then
    .ok { rows := p.eigenvectors.rows, cols := vec.cols, depth := p.mean.depth, channels := 1,
          data := cv.project_px p vec }
  else .error Error.cv_exception

/-! ## `preprocessing_functions.cpp` -/

/-- Function `preprocessing::Filter`. -/
def Filter (cv : Cv) (grayscale_img : Mat) (type : FilterType) : Except Error Mat :=
  let after_sobel : Except Error Mat :=
    if type = sobel then
      match Sobel cv grayscale_img 1 0, Sobel cv grayscale_img 0 1 with
      | .ok sobel_x, .ok sobel_y =>
        addWeighted cv (convertScaleAbs cv sobel_x) (convertScaleAbs cv sobel_y)
      | .error e, _ => .error e
      | _, .error e => .error e
    else .ok grayscale_img
  match after_sobel with
  | .error e => .error e
  | .ok img1 =>
    let after_median : Except Error Mat :=
      if type = median then medianBlur cv img1 5 else .ok img1
    match after_median with
    | .error e => .error e
    | .ok img2 => if type = gaussian then GaussianBlur cv img2 else .ok img2

/-- Function `preprocessing::SubtractMean`: `img = img - mean(img)`. -/
def SubtractMean (cv : Cv) (grayscale_img : Mat) : Except Error Mat :=
  if 4 < grayscale_img.channels then .error Error.cv_exception
  else .ok { grayscale_img with data := cv.subtract_mean_px grayscale_img }

/-- Function `preprocessing::ConvertToNegative`. -/
def ConvertToNegative (cv : Cv) (grayscale_img : Mat) : Except Error Mat :=
  let converted : Except Error Mat :=
    if grayscale_img.channels = 3 then cvtColor cv grayscale_img CV_BGR2GRAY
    else .ok grayscale_img
  match converted with
  | .error e => .error e
  | .ok img =>
    if img.is_CV_8U then .ok { img with data := cv.subtract_from_px 255 img }
    else if img.is_CV_32F then .ok { img with data := cv.subtract_from_px 1 img }
    else .error (Error.invalid_argument
      "Cannot convert to negative: uncorrect Mat type (only CV_8U and CV_32F accepted)")

/-- Function `preprocessing::ConvertToYuv`. The three `Mat::zeros` planes the source
allocates first are replaced by `split`. -/
def ConvertToYuv (cv : Cv) (input_img : Mat) : Except Error YuvImage :=
  match cvtColor cv input_img CV_BGR2YUV with
  | .error e => .error e
  | .ok temp_yuv_image =>
    match resize_half cv (split cv temp_yuv_image 1) with
    | .error e => .error e
    | .ok u =>
      match resize_half cv (split cv temp_yuv_image 2) with
      | .error e => .error e
      | .ok v => .ok { luminance := split cv temp_yuv_image 0, chrominances := { u := u, v := v } }

/-- The value `CompareImages` returns: `+infinity`, or the PSNR `10 * log10(255 * 255 / m)` of
a mean squared error `m`, kept as its argument `m`. -/
inductive PSNR where
  | infinity
  | of_mean_squared_error (m : ℚ)
  deriving DecidableEq

/-- Function `preprocessing::Normalize8Bit`. -/
def Normalize8Bit (cv : Cv) (input : Mat) : Mat :=
  let min_max := cv.minMaxLoc input
  let delta := cv.double_sub min_max.2 min_max.1
  let shifted : Mat := { input with data := cv.subtract_scalar_px input min_max.1 }
  let scaled : Mat :=
    { shifted with data := cv.multiply_scalar_px shifted (cv.double_255_over delta) }
  if scaled.is_CV_8U then scaled
  else { scaled with depth := Depth.CV_8U, data := cv.convertTo_px scaled Depth.CV_8U }

/-- The sum over all channels of `sum(diff)` after `absdiff`, `convertTo(CV_32F)` and
`diff.mul(diff)`, for 8-bit operands: the sum of the squared differences of corresponding
elements. On 8-bit data every step is exact (no square exceeds `255 * 255`). -/
def total_squared_difference (a b : List Nat) : ℚ :=
  ((List.zipWith (fun x y => if y ≤ x then x - y else y - x) a b).map
    (fun d => ((d * d : Nat) : ℚ))).sum

/-- Function `preprocessing::CompareImages`. The call `waitKey(0)` has no part in the
result. -/
def CompareImages (cv : Cv) (img1 img2 : Mat) : Except Error PSNR :=
  let operands : Except Error (Mat × Mat) :=
    if img1.channels ≠ img2.channels then
      if img1.channels = 3 then
        match cvtColor cv img1 CV_BGR2GRAY with
        | .error e => .error e
        | .ok gray => .ok (gray, img2)
      else
        match cvtColor cv img2 CV_BGR2GRAY with
        | .error e => .error e
        | .ok gray => .ok (img1, gray)
    else .ok (img1, img2)
  match operands with
  | .error e => .error e
  | .ok (first, second) =>
    let normalized1 := Normalize8Bit cv first
    let normalized2 := Normalize8Bit cv second
    if normalized1.rows = normalized2.rows ∧ normalized1.cols = normalized2.cols
        ∧ normalized1.channels = normalized2.channels then
      let total_sq_diff := total_squared_difference normalized1.data normalized2.data
      if total_sq_diff ≤ 1 / 10000000000 then .ok PSNR.infinity
      else .ok (PSNR.of_mean_squared_error
        (total_sq_diff / ((normalized1.channels * normalized2.total : Nat) : ℚ)))
    else .error Error.cv_exception

/-- Function `preprocessing::PcaBase(data, max_components)`. -/
def PcaBase (cv : Cv) (data : Mat) (max_components : Int) : Except Error PCA :=
  cv.pca_fit data max_components

/-! ## `image.cpp` -/

/-- Struct `ProcessingConfiguration`. -/
structure ProcessingConfiguration where
  format : Int
  filter : Bool
  filter_types : List FilterType
  mean : Bool
  negative : Bool
  pca : Bool
  deriving DecidableEq, Repr

/-- The default constructor of `ProcessingConfiguration`. -/
def ProcessingConfiguration.default : ProcessingConfiguration :=
  { format := CV_LOAD_IMAGE_GRAYSCALE, filter := false, filter_types := [], mean := false,
    negative := false, pca := false }

/-- Static member `Image::cfg` at program start. -/
def Image_cfg_initial : ProcessingConfiguration :=
  { format := CV_LOAD_IMAGE_GRAYSCALE, filter := false, filter_types := [], mean := false,
    negative := false, pca := false }

/-- Function `Image::SetCfg`: the result of the call and the value of `Image::cfg` after it. -/
def SetCfg (new_cfg : ProcessingConfiguration) : Except Error Unit × ProcessingConfiguration :=
  if new_cfg.format ≠ CV_LOAD_IMAGE_COLOR ∧ new_cfg.format ≠ CV_LOAD_IMAGE_GRAYSCALE then
    (.error (Error.invalid_argument
      ("Invalid format, only CV_LOAD_IMAGE_COLOR (" ++ toString CV_LOAD_IMAGE_COLOR ++
        ") or CV_LOAD_IMAGE_GRAYSCALE (" ++ toString CV_LOAD_IMAGE_GRAYSCALE ++ ") available")),
     new_cfg)
  else (.ok (), new_cfg)

/-- Class `Image`: `processed` and `formatted` are smart pointers, empty until set. -/
structure Image where
  original : Mat
  processed : Option Mat
  formatted : Option (List float)
  label : Int
  deriving DecidableEq, Repr

/-- Constructor `Image(cv::Mat img, int label)`. -/
def Image.of_mat (img : Mat) (label : Int) : Except Error Image :=
  if img.cols = 0 ∧ img.rows = 0 then
    .error (Error.invalid_argument "Image constructor: Empty Mat")
  else .ok { original := img, processed := none, formatted := none, label := label }

def Image.GetSize (self : Image) : Int := static_cast_int (self.original.total : Int)

def Image.GetLabel (self : Image) : Int := self.label

/-- The floats `ptr<float>(i) .. ptr<float>(i) + cols` of every row `i`, in order. -/
def row_floats (cv : Cv) (out_mat : Mat) : List float :=
  (List.range out_mat.rows).flatMap (fun i => (List.range out_mat.cols).map (cv.at_float out_mat i))

/-- The matrix `out_mat` of `Image::FormatMatForNn`. -/
def FormatMatForNn_out (cv : Cv) (img : Mat) : Mat :=
  if img.is_CV_8U then
    let converted : Mat := { img with depth := Depth.CV_32F, data := cv.convertTo_px img Depth.CV_32F }
    { converted with data := cv.divide_px converted 256 }
  else img

/-- Method `Image::FormatMatForNn`: appends to the vector `formatted` points to. -/
def Image.FormatMatForNn (cv : Cv) (self : Image) (img : Mat) : Except Error Image :=
  match self.formatted with
  | none => .error Error.null_pointer
  | some v => .ok { self with formatted := some (v ++ row_floats cv (FormatMatForNn_out cv img)) }

/-- Method `Image::FormatDataForNn`. -/
def Image.FormatDataForNn (cv : Cv) (self : Image) (grayscale : Mat) (color : Option Chrominances) :
    Except Error Image :=
  let cleared : Image :=
    match self.formatted with
    | some _ => { self with formatted := some [] }
    | none => self
  match cleared.FormatMatForNn cv grayscale with
  | .error e => .error e
  | .ok self1 =>
    match color with
    | none => .ok self1
    | some c =>
      match self1.FormatMatForNn cv c.u with
      | .error e => .error e
      | .ok self2 => self2.FormatMatForNn cv c.v

/-- The loop `for (auto f : cfg.filter_types) Filter(*grayscale, f)`. -/
def apply_filters (cv : Cv) : List FilterType → Mat → Except Error Mat
  | [], grayscale => .ok grayscale
  | f :: fs, grayscale =>
    match Filter cv grayscale f with
    | .error e => .error e
    | .ok g => apply_filters cv fs g

/-- Method `Image::Process`; `cfg` is the static `Image::cfg`. -/
def Image.Process (cv : Cv) (cfg : ProcessingConfiguration) (self : Image) :
    Except Error (Mat × Option Chrominances) :=
  let start : Except Error (Mat × Option Chrominances) :=
    if cfg.format = CV_LOAD_IMAGE_COLOR then
      match ConvertToYuv cv self.original with
      | .error e => .error e
      | .ok yuvImg => .ok (yuvImg.luminance, some yuvImg.chrominances)
    else .ok (self.original, none)
  match start with
  | .error e => .error e
  | .ok (grayscale0, color) =>
    match (if cfg.mean then SubtractMean cv grayscale0 else .ok grayscale0) with
    | .error e => .error e
    | .ok grayscale1 =>
      match (if cfg.filter then apply_filters cv cfg.filter_types grayscale1 else .ok grayscale1) with
      | .error e => .error e
      | .ok grayscale2 =>
        match (if cfg.negative then ConvertToNegative cv grayscale2 else .ok grayscale2) with
        | .error e => .error e
        | .ok grayscale3 => .ok (grayscale3, color)

/-- Method `Image::PcaPrepare`. -/
def Image.PcaPrepare (cv : Cv) (cfg : ProcessingConfiguration) (self : Image) :
    Except Error Mat × Image :=
  match self.Process cv cfg with
  | .error e => (.error e, self)
  | .ok (processed_img, _) =>
    let dst := processed_img.reshape_1_1
    (.ok dst, { self with processed := some dst })

/-- Method `Image::ProcesssAndFormatData()`: the returned pointer and the image after the
call. The member `formatted` is assigned before `Process` runs. -/
def Image.ProcesssAndFormatData (cv : Cv) (cfg : ProcessingConfiguration) (self : Image) :
    Except Error (Option (List float)) × Image :=
  match self.formatted with
  | some v => (.ok (some v), self)
  | none =>
    let self1 : Image := { self with formatted := some [] }
    match self1.Process cv cfg with
    | .error e => (.error e, self1)
    | .ok (grayscale, color) =>
      match self1.FormatDataForNn cv grayscale color with
      | .error e => (.error e, self1)
      | .ok self2 => (.ok self2.formatted, self2)

/-- Method `Image::ProcesssAndFormatData(cv::PCA&)`. -/
def Image.ProcesssAndFormatData_pca (cv : Cv) (pca_vector : PCA) (self : Image) :
    Except Error (Option (List float)) × Image :=
  match self.formatted with
  | some v => (.ok (some v), self)
  | none =>
    let self1 : Image := { self with formatted := some [] }
    match self1.processed with
    | none => (.error Error.null_pointer, self1)
    | some processed =>
      match pca_vector.project cv processed.reshape_1_1 with
      | .error e => (.error e, self1)
      | .ok point =>
        match self1.FormatDataForNn cv point none with
        | .error e => (.error e, self1)
        | .ok self2 => (.ok self2.formatted, self2)

/-! ## `data_loader.cpp` -/

/-- Struct `WIN32_FIND_DATA`, as far as `ReadFilenames` reads it. -/
structure DirEntry where
  cFileName : String
  /-- The bit `dwFileAttributes & FILE_ATTRIBUTE_DIRECTORY`. -/
  is_directory : Bool
  deriving DecidableEq, Repr

/-- The directory tree the loader scans. -/
structure FileSystem where
  /-- The entries `FindFirstFile(pattern)` and `FindNextFile` enumerate, in order; the empty
  list stands for `INVALID_HANDLE_VALUE`. -/
  find_files : String → List DirEntry
  /-- The call `imread(path, flags)`; an empty matrix when the file cannot be decoded. -/
  imread : String → Int → Mat

/-- Binary files by path, each a sequence of 4-byte words. -/
abbrev Disk := String → Option (List Word)

/-- The file at `path` after an `ofstream` opened with `ios::trunc` wrote `content`. -/
def Disk.write (disk : Disk) (path : String) (content : List Word) : Disk :=
  fun p => if p = path then some content else disk p

/-- Constructor `Image(const string path, int label)`; `cfg` is the static `Image::cfg`. -/
def Image.of_path (fs : FileSystem) (cfg : ProcessingConfiguration) (path : String) (label : Int) :
    Except Error Image :=
  let original := fs.imread path cfg.format
  if original.cols = 0 ∧ original.rows = 0 then
    .error (Error.invalid_argument
      ("Image constructor: Invalid path: " ++ path ++ " , image could not be read"))
  else .ok { original := original, processed := none, formatted := none, label := label }

/-- Whether `s` begins with `pat`. -/
def starts_with : List Char → List Char → Bool
  | [], _ => true
  | _ :: _, [] => false
  | p :: ps, c :: cs => decide (p = c) && starts_with ps cs

/-- Method `std::string::find`: the first position at which `pat` occurs in `s`, `none`
for `npos`. -/
def string_find : List Char → List Char → Option Nat
  | [], pat => if pat = [] then some 0 else none
  | c :: cs, pat =>
    if starts_with pat (c :: cs) then some 0 else (string_find cs pat).map (· + 1)

/-- The flag `correct_type` after the loop over the allowed extensions. -/
def correct_type (allowed_extentions : List String) (file_name : String) : Bool :=
  allowed_extentions.foldl
    (fun correct extension =>
      if (string_find file_name.data extension.data).isSome then true else correct) false

/-- The `do ... while (FindNextFile(...))` loop of `ReadFilenames`. -/
def ReadFilenames_loop (allowed_extentions : List String) (path : String) :
    List DirEntry → List String → List String
  | [], filenames => filenames
  | file_data :: rest, filenames =>
    let file_name := file_data.cFileName
    let correct := correct_type allowed_extentions file_name
    let full_file_name := path ++ file_name
    if file_name.data.head? = some '.' then
      ReadFilenames_loop allowed_extentions path rest filenames
    else if file_data.is_directory then
      ReadFilenames_loop allowed_extentions path rest filenames
    else if !correct then
      ReadFilenames_loop allowed_extentions path rest filenames
    else ReadFilenames_loop allowed_extentions path rest (filenames ++ [full_file_name])

/-- Class `DataLoader`. -/
structure DataLoader where
  images : List Image
  path : String
  num_categories : Int
  cfg : ProcessingConfiguration
  allowed_extentions : List String
  num_images : Int
  current_index : Int
  pca_vector : PCA
  deriving DecidableEq, Repr

/-- The default argument of the constructor's `extensions`. -/
def default_extensions : List String := [".JPEG", ".jpg", ".jpeg", ".png", ".bmp"]

/-- Constructor `DataLoader::DataLoader`: the result and `Image::cfg` after the call. The
member initialiser `cfg(move(cfg))` moves the parameter's filter list into the member,
and the body passes the moved-from parameter to `Image::SetCfg`. -/
def DataLoader.create (path : String) (num_categories : Int) (cfg : ProcessingConfiguration)
    (extensions : List String) (image_cfg : ProcessingConfiguration) :
    Except Error DataLoader × ProcessingConfiguration :=
  let moved_from : ProcessingConfiguration := { cfg with filter_types := [] }
  if num_categories < 2 then
    (.error (Error.invalid_argument
      "DataLoader constructor: There must be at least 2 categories for classification"),
     image_cfg)
  else
    match SetCfg moved_from with
    | (.error e, image_cfg1) => (.error e, image_cfg1)
    | (.ok (), image_cfg1) =>
      (.ok { images := [], path := path, num_categories := num_categories, cfg := cfg,
             allowed_extentions := extensions, num_images := 0, current_index := 0,
             pca_vector := PCA.nil },
       image_cfg1)

def DataLoader.GetNumImages (self : DataLoader) : Int := self.num_images

/-- Method `DataLoader::ReadFilenames`: the vector `filenames` on return. -/
def DataLoader.ReadFilenames (fs : FileSystem) (self : DataLoader) (path : String) :
    Except Error (List String) :=
  match fs.find_files (path ++ "/*") with
  | [] => .error (Error.invalid_argument
      ("There is no folder with a given path (" ++ path ++ ") or it is empty"))
  | file_data :: rest =>
    let filenames := ReadFilenames_loop self.allowed_extentions path (file_data :: rest) []
    if filenames.isEmpty then
      .error (Error.invalid_argument
        ("There is no folder with a given path (" ++ path ++ ") or it is empty"))
    else .ok filenames

/-- The loop of `ReadAllFromDirectory` over `filenames`, with the local `data_dimension`
and the member `images`. -/
def ReadAllFromDirectory_loop (fs : FileSystem) (image_cfg : ProcessingConfiguration) (label : Int) :
    List String → Int → List Image → Except Error Unit × List Image
  | [], _, images => (.ok (), images)
  | file :: rest, data_dimension, images =>
    match Image.of_path fs image_cfg file label with
    | .error e => (.error e, images)
    | .ok img =>
      let images1 := images ++ [img]
      let current_dim := img.GetSize
      if current_dim ≠ data_dimension ∧ data_dimension ≠ -1 then
        (.error (Error.invalid_argument "Inconsistent data size!"), images1)
      else ReadAllFromDirectory_loop fs image_cfg label rest current_dim images1

/-- Method `DataLoader::ReadAllFromDirectory`. -/
def DataLoader.ReadAllFromDirectory (fs : FileSystem) (image_cfg : ProcessingConfiguration)
    (self : DataLoader) (filenames : List String) (label : Int) : Except Error Int × DataLoader :=
  match ReadAllFromDirectory_loop fs image_cfg label filenames (-1) self.images with
  | (.error e, images) => (.error e, { self with images := images })
  | (.ok (), images) =>
    (.ok (static_cast_int (filenames.length : Int)), { self with images := images })

/-- The result of `std::shuffle` on a sequence. -/
def shuffle_list {α : Type} (cv : Cv) (l : List α) : List α :=
  List.ofFn (fun i : Fin l.length => l.get (cv.shuffle_perm l.length i))

/-- Method `DataLoader::ShuffleImages`. -/
def DataLoader.ShuffleImages (cv : Cv) (self : DataLoader) : DataLoader :=
  { self with images := shuffle_list cv self.images }

/-- The loop of `PcaCalculate`: every image is prepared and its row pushed onto `m`. -/
def PcaCalculate_loop (cv : Cv) (image_cfg : ProcessingConfiguration) :
    List Image → Mat → Except Error Mat × List Image
  | [], m => (.ok m, [])
  | img :: rest, m =>
    match img.PcaPrepare cv image_cfg with
    | (.error e, img1) => (.error e, img1 :: rest)
    | (.ok row, img1) =>
      match m.push_back row with
      | .error e => (.error e, img1 :: rest)
      | .ok m1 =>
        let t := PcaCalculate_loop cv image_cfg rest m1
        (t.1, img1 :: t.2)

/-- Method `DataLoader::PcaCalculate`. -/
def DataLoader.PcaCalculate (cv : Cv) (image_cfg : ProcessingConfiguration) (self : DataLoader) :
    Except Error PCA × DataLoader :=
  match PcaCalculate_loop cv image_cfg self.images Mat.nil with
  | (.error e, images) => (.error e, { self with images := images })
  | (.ok m, images) => (PcaBase cv m 100, { self with images := images })

/-- The statement `if (cfg.pca) pca_vector = PcaCalculate();`. -/
def DataLoader.refit_pca (cv : Cv) (image_cfg : ProcessingConfiguration) (self : DataLoader) :
    Except Error Unit × DataLoader :=
  if self.cfg.pca then
    match self.PcaCalculate cv image_cfg with
    | (.error e, self1) => (.error e, self1)
    | (.ok p, self1) => (.ok (), { self1 with pca_vector := p })
  else (.ok (), self)

/-- The loop of `ReadData` over the category indices, with the local `num_files`. -/
def ReadData_loop (fs : FileSystem) (image_cfg : ProcessingConfiguration) :
    List Nat → Int → DataLoader → Except Error Int × DataLoader
  | [], num_files, self => (.ok num_files, self)
  | i :: rest, num_files, self =>
    match self.ReadFilenames fs (self.path ++ toString i ++ "/") with
    | .error e => (.error e, self)
    | .ok filenames_in_dir =>
      match self.ReadAllFromDirectory fs image_cfg filenames_in_dir (i : Int) with
      | (.error e, self1) => (.error e, self1)
      | (.ok k, self1) =>
        ReadData_loop fs image_cfg rest (static_cast_int (num_files + k)) self1

/-- Method `DataLoader::ReadData`. -/
def DataLoader.ReadData (cv : Cv) (fs : FileSystem) (image_cfg : ProcessingConfiguration)
    (self : DataLoader) (random_shuffle : Bool) : Except Error Int × DataLoader :=
  match ReadData_loop fs image_cfg (List.range self.num_categories.toNat) 0 self with
  | (.error e, self1) => (.error e, self1)
  | (.ok num_files, self1) =>
    match self1.refit_pca cv image_cfg with
    | (.error e, self2) => (.error e, self2)
    | (.ok (), self2) =>
      let self3 := if random_shuffle then self2.ShuffleImages cv else self2
      (.ok num_files, { self3 with num_images := num_files })

/-- Method `DataLoader::LoadNextImage`. -/
def DataLoader.LoadNextImage (cv : Cv) (image_cfg : ProcessingConfiguration) (self : DataLoader) :
    Except Error (Option (List float)) × DataLoader :=
  if self.current_index < 0 then (.error Error.null_pointer, self)
  else
    match self.images.get? self.current_index.toNat with
    | none => (.error Error.null_pointer, self)
    | some img =>
      let r := if self.cfg.pca then img.ProcesssAndFormatData cv image_cfg
               else img.ProcesssAndFormatData_pca cv self.pca_vector
      let self1 : DataLoader :=
        { self with images := self.images.set self.current_index.toNat r.2 }
      match r.1 with
      | .error e => (.error e, self1)
      | .ok current_image =>
        let self2 : DataLoader :=
          { self1 with current_index := static_cast_int (self1.current_index + 1) }
        if self2.current_index = self2.num_images then
          (.ok current_image, ({ self2 with current_index := 0 }).ShuffleImages cv)
        else (.ok current_image, self2)

/-- The first loop of `SaveFormattedData`: the images after the loop and the words written. -/
def save_vectors (cv : Cv) (image_cfg cfg : ProcessingConfiguration) (pca_vector : PCA) :
    List Image → Except Error Unit × List Image × List Word
  | [] => (.ok (), [], [])
  | img :: rest =>
    match (if cfg.pca then img.ProcesssAndFormatData_pca cv pca_vector
           else img.ProcesssAndFormatData cv image_cfg) with
    | (.error e, img1) => (.error e, img1 :: rest, [])
    | (.ok none, img1) => (.error Error.null_pointer, img1 :: rest, [])
    | (.ok (some formatted_vector), img1) =>
      let size := static_cast_int (formatted_vector.length : Int)
      let t := save_vectors cv image_cfg cfg pca_vector rest
      (t.1, img1 :: t.2.1, bits_of_int size :: (formatted_vector ++ t.2.2))

/-- Method `DataLoader::SaveFormattedData`: the result, the loader and the disk after the
call. Opening the file is taken to succeed; when the loop throws, the words written so far
remain in the file. -/
def DataLoader.SaveFormattedData (cv : Cv) (image_cfg : ProcessingConfiguration)
    (self : DataLoader) (path : String) (disk : Disk) : Except Error Unit × DataLoader × Disk :=
  match self.refit_pca cv image_cfg with
  | (.error e, self1) => (.error e, self1, disk)
  | (.ok (), self1) =>
    let t := save_vectors cv image_cfg self1.cfg self1.pca_vector self1.images
    let self2 : DataLoader := { self1 with images := t.2.1 }
    match t.1 with
    | .error e => (.error e, self2, disk.write path (bits_of_int self1.num_images :: t.2.2))
    | .ok () =>
      (.ok (), self2,
        disk.write path (bits_of_int self1.num_images ::
          (t.2.2 ++ self2.images.map (fun img => bits_of_int img.GetLabel))))

/-- A `file.read` of an `int`: at the end of the stream the variable keeps its value. -/
def read_int (old : Int) : List Word → Int × List Word
  | [] => (old, [])
  | w :: rest => (int_of_bits w, rest)

/-- The inner loop of `ReadVector`: `k` reads into `f`, each followed by `push_back(f)`. -/
def read_floats : Nat → float → List Word → List float × float × List Word
  | 0, f, s => ([], f, s)
  | k + 1, f, [] =>
    let t := read_floats k f []
    (f :: t.1, t.2.1, t.2.2)
  | k + 1, _, w :: rest =>
    let t := read_floats k w rest
    (w :: t.1, t.2.1, t.2.2)

/-- The first loop of `ReadVector` over the entries of the resized `data_vector`. -/
def read_records : List (List float) → float → List Word → List (List float) × float × List Word
  | [], f, s => ([], f, s)
  | entry :: rest, f, s =>
    let size2 := read_int 0 s
    let t := read_floats size2.1.toNat f size2.2
    let u := read_records rest t.2.1 t.2.2
    ((entry ++ t.1) :: u.1, u.2.1, u.2.2)

/-- The second loop of `ReadVector` over the entries of the resized `labels`. -/
def read_labels : List Int → List Word → List Int × List Word
  | [], s => ([], s)
  | _ :: rest, s =>
    let label := read_int 0 s
    let u := read_labels rest label.2
    (label.1 :: u.1, u.2)

/-- Method `std::vector::resize(n)` with value-initialised new elements. -/
def vector_resize {α : Type} (v : List α) (n : Nat) (fill : α) : List α :=
  v.take n ++ List.replicate (n - v.length) fill

/-- Method `DataLoader::ReadVector`: the two containers on return. `junk` is the content of
the uninitialised local `f`; a file that cannot be opened reads as an exhausted stream. -/
def ReadVector (disk : Disk) (path : String) (junk : float) (data_vector : List (List float))
    (labels : List Int) : Except Error (List (List float) × List Int) :=
  let size := read_int 0 ((disk path).getD [])
  if size.1 < 0 then .error Error.length_error
  else
    let records := read_records (vector_resize data_vector size.1.toNat []) junk size.2
    let read := read_labels (vector_resize labels size.1.toNat 0) records.2.2
    .ok (records.1, read.1)

/-! ## Concrete inputs -/

/-- A backend whose pixel kernels copy their input, for evaluating the control flow of the
program on concrete inputs. -/
def Cv.plain : Cv :=
  { cvtColor_px := fun _ m => m.data
    split_px := fun m _ => m.data
    resize_px := fun m _ _ => m.data
    Sobel_px := fun m _ _ => m.data
    convertScaleAbs_px := fun m => m.data
    addWeighted_px := fun m _ => m.data
    medianBlur_px := fun m _ => m.data
    GaussianBlur_px := fun m => m.data
    subtract_mean_px := fun m => m.data
    subtract_from_px := fun _ m => m.data
    convertTo_px := fun m _ => m.data
    divide_px := fun m _ => m.data
    at_float := fun _ _ _ => ⟨0, by decide⟩
    project_px := fun _ m => m.data
    pca_fit := fun _ _ => .error Error.cv_exception
    shuffle_perm := fun _ => Equiv.refl _
    minMaxLoc := fun _ => (⟨0, by decide⟩, ⟨0, by decide⟩)
    subtract_scalar_px := fun m _ => m.data
    multiply_scalar_px := fun m _ => m.data
    double_sub := fun a _ => a
    double_255_over := fun d => d }

/-- An 8-bit matrix with the given header and no pixel payload attached. -/
def Mat.blank (rows cols channels : Nat) : Mat :=
  { rows := rows, cols := cols, depth := Depth.CV_8U, channels := channels, data := [] }

/-- The configuration of colour mode with every other option off. -/
def cfg_color : ProcessingConfiguration :=
  { format := CV_LOAD_IMAGE_COLOR, filter := false, filter_types := [], mean := false,
    negative := false, pca := false }


/-- An 8-bit single-channel plane of `H` rows and `W` columns. -/
def Mat.is_plane (m : Mat) (H W : Nat) : Prop :=
  m.rows = H ∧ m.cols = W ∧ m.depth = Depth.CV_8U ∧ m.channels = 1

/-- The vector `FormatDataForNn` leaves in `formatted`: the luminance rows, then the rows of
both chrominance planes when they are present. -/
def format_planes (cv : Cv) (g : Mat) (color : Option Chrominances) : List float :=
  row_floats cv (FormatMatForNn_out cv g) ++
    (match color with
     | none => []
     | some c => row_floats cv (FormatMatForNn_out cv c.u) ++
         row_floats cv (FormatMatForNn_out cv c.v))

/-- A corpus `root/` of two categories with one image each: `root/0/a.png` of 1x1 pixels and
`root/1/b.png` of `n`x`n` pixels, decoded with one channel unless colour is requested. -/
def corpus (n : Nat) : FileSystem :=
  { find_files := fun pattern =>
      if pattern = "root/0//*" then [⟨".", true⟩, ⟨"..", true⟩, ⟨"a.png", false⟩]
      else if pattern = "root/1//*" then [⟨".", true⟩, ⟨"..", true⟩, ⟨"b.png", false⟩]
      else []
    imread := fun path flags =>
      if path = "root/0/a.png" then Mat.blank 1 1 (if flags = CV_LOAD_IMAGE_COLOR then 3 else 1)
      else if path = "root/1/b.png" then
        Mat.blank n n (if flags = CV_LOAD_IMAGE_COLOR then 3 else 1)
      else Mat.nil }

/-- The loader `DataLoader("root/", 2, cfg)` built while `Image::cfg` has its initial value;
the default loader when the constructor throws. -/
def loader_for (cfg : ProcessingConfiguration) : DataLoader :=
  match (DataLoader.create "root/" 2 cfg default_extensions Image_cfg_initial).1 with
  | .ok loader => loader
  | .error _ =>
    { images := [], path := "", num_categories := 0, cfg := cfg, allowed_extentions := [],
      num_images := 0, current_index := 0, pca_vector := PCA.nil }

/-- The value of `Image::cfg` after `DataLoader("root/", 2, cfg)`. -/
def image_cfg_for (cfg : ProcessingConfiguration) : ProcessingConfiguration :=
  (DataLoader.create "root/" 2 cfg default_extensions Image_cfg_initial).2

/-- The loader after `DataLoader("root/", 2, cfg)` and one `ReadData()` on `corpus n`. -/
def loaded (n : Nat) (cfg : ProcessingConfiguration) : DataLoader :=
  ((loader_for cfg).ReadData Cv.plain (corpus n) (image_cfg_for cfg) false).2

/-- The extension of a file name in the words of the specification: the part from the last
`.` to the end, empty when the name has no `.`. -/
def spec_extension : List Char → List Char
  | [] => []
  | c :: cs =>
    if spec_extension cs ≠ [] then spec_extension cs
    else if c = '.' then c :: cs
    else []

/-- A tree whose folder `root/0/` holds an image and a text file named `notes.jpg.txt`. -/
def folder_with_text_file : FileSystem :=
  { find_files := fun pattern =>
      if pattern = "root/0//*" then
        [⟨".", true⟩, ⟨"..", true⟩, ⟨"a.png", false⟩, ⟨"notes.jpg.txt", false⟩]
      else []
    imread := fun path _ => if path = "root/0/a.png" then Mat.blank 1 1 1 else Mat.nil }

/-- The folder of category `i` below `path`, as `ReadData` names it. -/
def category_dir (path : String) (i : Nat) : String := path ++ toString i ++ "/"

/-- The files of category `i` that pass the filter of `ReadFilenames`, in enumeration order;
empty when the folder is missing. -/
def accepted_files (fs : FileSystem) (path : String) (allowed_extentions : List String)
    (i : Nat) : List String :=
  ReadFilenames_loop allowed_extentions (category_dir path i)
    (fs.find_files (category_dir path i ++ "/*")) []

/-- The number of accepted files, summed over the categories `0 .. num_categories - 1`. -/
def total_accepted (fs : FileSystem) (self : DataLoader) : Nat :=
  ((List.range self.num_categories.toNat).map
    (fun i => (accepted_files fs self.path self.allowed_extentions i).length)).sum

/-- The labels one scan of the corpus adds: category `i` once per accepted file, categories
in ascending order. -/
def scan_labels (fs : FileSystem) (self : DataLoader) : List Int :=
  (List.range self.num_categories.toNat).flatMap
    (fun i => List.replicate (accepted_files fs self.path self.allowed_extentions i).length (i : Int))

/-- The corpus `corpus 1` seen by a loader of three categories: folder `root/2/` is missing. -/
def loader_of_three : DataLoader :=
  { images := [], path := "root/", num_categories := 3, cfg := ProcessingConfiguration.default,
    allowed_extentions := default_extensions, num_images := 0, current_index := 0,
    pca_vector := PCA.nil }

/-- The records of a dataset file: for every vector its length as an `int`, then its floats. -/
def encode_vectors (vs : List (List float)) : List Word :=
  vs.flatMap (fun v => bits_of_int (static_cast_int (v.length : Int)) :: v)

/-- The outcome of `SaveFormattedData("data.bin")` on the loader `loaded 1 cfg`, on a disk
without files. -/
def saved (cfg : ProcessingConfiguration) : Except Error Unit × DataLoader × Disk :=
  (loaded 1 cfg).SaveFormattedData Cv.plain (image_cfg_for cfg) "data.bin" (fun _ => none)

/-- The luminance pipeline in the words of the specification: mean subtraction if it is
enabled, then every configured filter in list order if filtering is enabled, then negation
if it is enabled. -/
def spec_luminance (cv : Cv) (cfg : ProcessingConfiguration) (L : Mat) : Except Error Mat :=
  (if cfg.mean then SubtractMean cv L else pure L) >>= fun a =>
  (if cfg.filter then cfg.filter_types.foldlM (fun g f => Filter cv g f) a else pure a) >>= fun b =>
  (if cfg.negative then ConvertToNegative cv b else pure b)

/-- The result of `process()` in the words of the specification: in colour mode the
luminance of the colour decomposition goes through the pipeline and the chrominance pair
is returned as decomposed; otherwise the original is the luminance and there is no
chrominance pair. -/
def spec_Process (cv : Cv) (cfg : ProcessingConfiguration) (original : Mat) :
    Except Error (Mat × Option Chrominances) :=
  if cfg.format = CV_LOAD_IMAGE_COLOR then
    ConvertToYuv cv original >>= fun yuv =>
      (spec_luminance cv cfg yuv.luminance).map (fun g => (g, some yuv.chrominances))
  else (spec_luminance cv cfg original).map (fun g => (g, none))

/-- A configuration that asks for the sobel filter on grayscale images. -/
def cfg_sobel : ProcessingConfiguration :=
  { format := CV_LOAD_IMAGE_GRAYSCALE, filter := true, filter_types := [sobel], mean := false,
    negative := false, pca := false }

/-- A dataset file with one record, the vector `[7]`, and the label 5. -/
def one_record_file : Disk :=
  fun p => if p = "data.bin" then
    some [bits_of_int 1, bits_of_int 1, ⟨7, by decide⟩, bits_of_int 5] else none

/-! ## Values of floats -/

/-- The value of a finite `float` in units of `2^-149` (every finite IEEE-754 single is a
whole number of such units); `none` for infinities and NaN. The value 1.0 is `2^149`
units. -/
def float_units (x : float) : Option Int :=
  if (x.val / 8388608) % 256 = 255 then none
  else if (x.val / 8388608) % 256 = 0 then
    some ((if x.val / 2147483648 = 1 then -1 else 1) * ((x.val % 8388608 : Nat) : Int))
  else
    some ((if x.val / 2147483648 = 1 then -1 else 1) *
      (((8388608 + x.val % 8388608) * 2 ^ ((x.val / 8388608) % 256 - 1) : Nat) : Int))

/-- The units of 1.0, `2^149`. -/
def units_of_one : Int := 713623846352979940529142984724747568191373312

/-- The units of `1/256`, `2^141`. -/
def units_of_256th : Int := 2787593149816327892691964784081045188247552

/-- A float that lies in `[0, 1]`. -/
def in_unit_interval (x : float) : Prop :=
  ∃ u, float_units x = some u ∧ 0 ≤ u ∧ u ≤ units_of_one

/-- A backend is exact on 8-bit planes when every float read from the matrix `out_mat` that
`FormatMatForNn` builds for an 8-bit plane is `p/256` for a byte `p`: the elements of an
8-bit matrix are bytes, and their conversion to float and the division by 256 are exact. -/
def Cv.exact_on_bytes (cv : Cv) : Prop :=
  ∀ (m : Mat) (i k : Nat), m.is_CV_8U = true → i < m.rows → k < m.cols →
    ∃ p : Nat, p ≤ 255 ∧
      float_units (cv.at_float (FormatMatForNn_out cv m) i k) = some ((p : Int) * units_of_256th)

/-- The position of the leading bit of a byte. -/
def byte_log2 (p : Nat) : Nat :=
  if p < 2 then 0 else if p < 4 then 1 else if p < 8 then 2 else if p < 16 then 3
  else if p < 32 then 4 else if p < 64 then 5 else if p < 128 then 6 else 7

/-- The bits of the float equal to the byte `p % 256`. -/
def byte_float (p : Nat) : Nat :=
  if p % 256 = 0 then 0
  else (byte_log2 (p % 256) + 127) * 8388608 +
    (p % 256 - 2 ^ byte_log2 (p % 256)) * 2 ^ (23 - byte_log2 (p % 256))

/-- The bits of `x / 256` for the float of a byte: the exponent field less 8, zero for zero. -/
def float_div_256 (b : Nat) : Nat := if b < 75497472 then 0 else b - 67108864

/-- A backend that is exact on 8-bit planes (bytes become floats, division by 256 lowers the
exponent by 8, a float plane is read as stored) and that knows one projection: the pixel
value 0 on the basis with mean 1.0 and eigenvector 1.0 projects to `(0 - 1) * 1 = -1.0`. -/
def Cv.reference : Cv :=
  { Cv.plain with
    convertTo_px := fun m d => if d = Depth.CV_32F then m.data.map byte_float else m.data
    divide_px := fun m n => if n = 256 then m.data.map float_div_256 else m.data
    at_float := fun m i k =>
      ⟨m.data.getD (i * m.cols + k) 0 % 4294967296, Nat.mod_lt _ (by decide)⟩
    project_px := fun p vec =>
      if p.mean.data = [1065353216] ∧ p.eigenvectors.data = [1065353216] ∧ vec.data = [0] then
        [3212836864]
      else vec.data }

/-- A 1x1 float matrix holding 1.0. -/
def Mat.one_float : Mat :=
  { rows := 1, cols := 1, depth := Depth.CV_32F, channels := 1, data := [1065353216] }

/-- The PCA basis of the two 1x1 images with pixel values 0 and 2: mean 1.0, one
eigenvector 1.0. -/
def basis_of_0_and_2 : PCA :=
  { mean := Mat.one_float, eigenvectors := Mat.one_float, eigenvalues := Mat.one_float }

/-- The 1x1 image with pixel value 0, after `PcaPrepare`. -/
def dark_pixel : Image :=
  { original := { rows := 1, cols := 1, depth := Depth.CV_8U, channels := 1, data := [0] }
    processed := some { rows := 1, cols := 1, depth := Depth.CV_8U, channels := 1, data := [0] }
    formatted := none
    label := 0 }

/-- The 1x2 grayscale image with the pixel values 0 and 255. -/
def black_and_white : Mat :=
  { rows := 1, cols := 2, depth := Depth.CV_8U, channels := 1, data := [0, 255] }

/-! # Theorems -/

/-! ## Machine integers -/

theorem int_of_bits_bits_of_int (x : Int) (h1 : -2147483648 ≤ x) (h2 : x < 2147483648) :
    int_of_bits (bits_of_int x) = x := by
  unfold int_of_bits bits_of_int
  simp only
  split <;> omega

theorem static_cast_int_of_lt (n : Nat) (h : n < 2147483648) :
    static_cast_int (n : Int) = (n : Int) := by
  unfold static_cast_int
  exact int_of_bits_bits_of_int _ (by omega) (by omega)

/-! ## Shape of the processed planes -/

theorem length_row_floats (cv : Cv) (m : Mat) : (row_floats cv m).length = m.rows * m.cols := by
  unfold row_floats
  rw [List.length_flatMap]
  have h : List.map (List.length ∘ fun i => List.map (cv.at_float m i) (List.range m.cols))
      (List.range m.rows) = List.replicate m.rows m.cols := by
    rw [List.eq_replicate_iff]
    constructor
    · simp
    · intro b hb
      simp only [List.mem_map, List.mem_range, Function.comp] at hb
      obtain ⟨_, _, rfl⟩ := hb
      simp
  rw [h, List.sum_const_nat]

theorem FormatMatForNn_out_rows (cv : Cv) (m : Mat) : (FormatMatForNn_out cv m).rows = m.rows := by
  unfold FormatMatForNn_out
  split <;> rfl

theorem FormatMatForNn_out_cols (cv : Cv) (m : Mat) : (FormatMatForNn_out cv m).cols = m.cols := by
  unfold FormatMatForNn_out
  split <;> rfl

theorem FormatMatForNn_some (cv : Cv) (self : Image) (m : Mat) (v : List float)
    (h : self.formatted = some v) :
    self.FormatMatForNn cv m =
      .ok { self with formatted := some (v ++ row_floats cv (FormatMatForNn_out cv m)) } := by
  unfold Image.FormatMatForNn
  rw [h]

theorem FormatDataForNn_some (cv : Cv) (self : Image) (g : Mat) (color : Option Chrominances)
    (v : List float) (h : self.formatted = some v) :
    self.FormatDataForNn cv g color =
      .ok { self with formatted := some (format_planes cv g color) } := by
  unfold Image.FormatDataForNn format_planes
  simp only [h]
  rw [FormatMatForNn_some cv _ g [] rfl]
  cases color with
  | none => simp
  | some c =>
    simp only
    rw [FormatMatForNn_some cv _ c.u _ rfl]
    simp only
    rw [FormatMatForNn_some cv _ c.v _ rfl]
    simp

theorem SubtractMean_plane (cv : Cv) (m : Mat) (H W : Nat) (h : m.is_plane H W) :
    ∃ m1, SubtractMean cv m = .ok m1 ∧ m1.is_plane H W := by
  obtain ⟨h1, h2, h3, h4⟩ := h
  refine ⟨{ m with data := cv.subtract_mean_px m }, ?_, h1, h2, h3, h4⟩
  unfold SubtractMean
  rw [if_neg (by omega)]

theorem Filter_plane (cv : Cv) (m : Mat) (f : FilterType) (H W : Nat) (h : m.is_plane H W) :
    ∃ m1, Filter cv m f = .ok m1 ∧ m1.is_plane H W := by
  obtain ⟨h1, h2, h3, h4⟩ := h
  unfold Filter
  have hs : ∃ a, (if f = sobel then
      match Sobel cv m 1 0, Sobel cv m 0 1 with
      | .ok sobel_x, .ok sobel_y =>
        addWeighted cv (convertScaleAbs cv sobel_x) (convertScaleAbs cv sobel_y)
      | .error e, _ => .error e
      | _, .error e => .error e
    else .ok m) = .ok a ∧ a.is_plane H W := by
    by_cases hf : f = sobel
    · rw [if_pos hf]
      simp only [Sobel, h3, true_or, if_true, addWeighted, convertScaleAbs, and_self]
      exact ⟨_, rfl, h1, h2, rfl, h4⟩
    · rw [if_neg hf]
      exact ⟨m, rfl, h1, h2, h3, h4⟩
  obtain ⟨a, ha, ha1, ha2, ha3, ha4⟩ := hs
  simp only [ha]
  have hm : ∃ b, (if f = median then medianBlur cv a 5 else .ok a) = .ok b ∧ b.is_plane H W := by
    by_cases hf : f = median
    · rw [if_pos hf]
      simp only [medianBlur, ha3, ha4, true_or, and_self, if_true]
      exact ⟨_, rfl, ha1, ha2, rfl, rfl⟩
    · rw [if_neg hf]
      exact ⟨a, rfl, ha1, ha2, ha3, ha4⟩
  obtain ⟨b, hb, hb1, hb2, hb3, hb4⟩ := hm
  simp only [hb]
  by_cases hf : f = gaussian
  · rw [if_pos hf]
    simp only [GaussianBlur, hb3]
    exact ⟨_, rfl, hb1, hb2, rfl, hb4⟩
  · rw [if_neg hf]
    exact ⟨b, rfl, hb1, hb2, hb3, hb4⟩

theorem apply_filters_plane (cv : Cv) (fs : List FilterType) (m : Mat) (H W : Nat)
    (h : m.is_plane H W) : ∃ m1, apply_filters cv fs m = .ok m1 ∧ m1.is_plane H W := by
  induction fs generalizing m with
  | nil => exact ⟨m, rfl, h⟩
  | cons f fs ih =>
    obtain ⟨a, ha, hpa⟩ := Filter_plane cv m f H W h
    obtain ⟨b, hb, hpb⟩ := ih a hpa
    refine ⟨b, ?_, hpb⟩
    simp only [apply_filters, ha, hb]

theorem ConvertToNegative_plane (cv : Cv) (m : Mat) (H W : Nat) (h : m.is_plane H W) :
    ∃ m1, ConvertToNegative cv m = .ok m1 ∧ m1.is_plane H W := by
  obtain ⟨h1, h2, h3, h4⟩ := h
  refine ⟨{ m with data := cv.subtract_from_px 255 m }, ?_, h1, h2, h3, h4⟩
  unfold ConvertToNegative
  simp [h4, h3, Mat.is_CV_8U]

theorem cvRound_half_pos (n : Nat) (h : 2 ≤ n) : cvRound_half n ≠ 0 := by
  unfold cvRound_half
  split
  · omega
  · split <;> omega

theorem cvRound_half_even (n : Nat) (h : n % 2 = 0) : cvRound_half n = n / 2 := by
  unfold cvRound_half
  rw [if_pos h]

theorem ConvertToYuv_color (cv : Cv) (m : Mat) (h3 : m.channels = 3) (hd : m.depth = Depth.CV_8U)
    (hr : 2 ≤ m.rows) (hc : 2 ≤ m.cols) :
    ∃ y, ConvertToYuv cv m = .ok y ∧ y.luminance.is_plane m.rows m.cols ∧
      y.chrominances.u.is_plane (cvRound_half m.rows) (cvRound_half m.cols) ∧
      y.chrominances.v.is_plane (cvRound_half m.rows) (cvRound_half m.cols) := by
  have hr0 := cvRound_half_pos m.rows hr
  have hc0 := cvRound_half_pos m.cols hc
  have hr1 : m.rows ≠ 0 := by omega
  have hc1 : m.cols ≠ 0 := by omega
  unfold ConvertToYuv
  simp only [cvtColor, h3, hd, true_or, and_self, if_true, resize_half, split, hr1, hc1, hr0, hc0,
    or_self, if_false]
  exact ⟨_, rfl, ⟨rfl, rfl, rfl, rfl⟩, ⟨rfl, rfl, rfl, rfl⟩, ⟨rfl, rfl, rfl, rfl⟩⟩

/-- The last three steps of `Process` keep an 8-bit plane an 8-bit plane of the same size. -/
theorem Process_steps_plane (cv : Cv) (cfg : ProcessingConfiguration) (g0 : Mat) (H W : Nat)
    (h : g0.is_plane H W) :
    ∃ a b c, (if cfg.mean then SubtractMean cv g0 else .ok g0) = .ok a ∧
      (if cfg.filter then apply_filters cv cfg.filter_types a else .ok a) = .ok b ∧
      (if cfg.negative then ConvertToNegative cv b else .ok b) = .ok c ∧ c.is_plane H W := by
  have s1 : ∃ a, (if cfg.mean then SubtractMean cv g0 else .ok g0) = .ok a ∧ a.is_plane H W := by
    by_cases hm : cfg.mean
    · rw [if_pos hm]; exact SubtractMean_plane cv g0 H W h
    · rw [if_neg hm]; exact ⟨g0, rfl, h⟩
  obtain ⟨a, ha, hpa⟩ := s1
  have s2 : ∃ b, (if cfg.filter then apply_filters cv cfg.filter_types a else .ok a) = .ok b ∧
      b.is_plane H W := by
    by_cases hm : cfg.filter
    · rw [if_pos hm]; exact apply_filters_plane cv _ a H W hpa
    · rw [if_neg hm]; exact ⟨a, rfl, hpa⟩
  obtain ⟨b, hb, hpb⟩ := s2
  have s3 : ∃ c, (if cfg.negative then ConvertToNegative cv b else .ok b) = .ok c ∧
      c.is_plane H W := by
    by_cases hm : cfg.negative
    · rw [if_pos hm]; exact ConvertToNegative_plane cv b H W hpb
    · rw [if_neg hm]; exact ⟨b, rfl, hpb⟩
  obtain ⟨c, hc, hpc⟩ := s3
  exact ⟨a, b, c, ha, hb, hc, hpc⟩

theorem Process_gray (cv : Cv) (cfg : ProcessingConfiguration) (self : Image) (H W : Nat)
    (hf : cfg.format ≠ CV_LOAD_IMAGE_COLOR) (h : self.original.is_plane H W) :
    ∃ g, self.Process cv cfg = .ok (g, none) ∧ g.is_plane H W := by
  obtain ⟨a, b, c, ha, hb, hc, hp⟩ := Process_steps_plane cv cfg self.original H W h
  refine ⟨c, ?_, hp⟩
  unfold Image.Process
  simp only [hf, if_false, ha, hb, hc]

theorem Process_color (cv : Cv) (cfg : ProcessingConfiguration) (self : Image)
    (hf : cfg.format = CV_LOAD_IMAGE_COLOR) (h3 : self.original.channels = 3)
    (hd : self.original.depth = Depth.CV_8U) (hr : 2 ≤ self.original.rows)
    (hc : 2 ≤ self.original.cols) :
    ∃ g c, self.Process cv cfg = .ok (g, some c) ∧
      g.is_plane self.original.rows self.original.cols ∧
      c.u.is_plane (cvRound_half self.original.rows) (cvRound_half self.original.cols) ∧
      c.v.is_plane (cvRound_half self.original.rows) (cvRound_half self.original.cols) := by
  obtain ⟨y, hy, hl, hu, hv⟩ := ConvertToYuv_color cv self.original h3 hd hr hc
  obtain ⟨a, b, c, ha, hb, hc, hp⟩ := Process_steps_plane cv cfg y.luminance _ _ hl
  refine ⟨c, y.chrominances, ?_, hp, hu, hv⟩
  unfold Image.Process
  simp only [hf, if_true, hy, ha, hb, hc]

theorem length_formatted_plane (cv : Cv) (m : Mat) (H W : Nat) (h : m.is_plane H W) :
    (row_floats cv (FormatMatForNn_out cv m)).length = H * W := by
  rw [length_row_floats, FormatMatForNn_out_rows, FormatMatForNn_out_cols, h.1, h.2.1]

/-- C8. `ProcesssAndFormatData` is cached: after a first call (with any backend and
configuration, whether it returned or threw) the image holds a stored vector, and a second
call returns exactly that vector and leaves the image unchanged whatever backend and
configuration it is given, so it neither runs `Process` nor the formatting step; and when
the first call returned a vector, the second call returns the identical vector. -/
theorem ProcesssAndFormatData_cached (cv cv2 : Cv) (cfg cfg2 : ProcessingConfiguration)
    (img : Image) :
    (∃ w, (img.ProcesssAndFormatData cv cfg).2.formatted = some w ∧
      (img.ProcesssAndFormatData cv cfg).2.ProcesssAndFormatData cv2 cfg2 =
        (.ok (some w), (img.ProcesssAndFormatData cv cfg).2)) ∧
    (∀ v, (img.ProcesssAndFormatData cv cfg).1 = .ok v →
      (img.ProcesssAndFormatData cv cfg).2.ProcesssAndFormatData cv2 cfg2 =
        (.ok v, (img.ProcesssAndFormatData cv cfg).2)) := by
  have hit : ∀ (s : Image) (w : List float), s.formatted = some w →
      s.ProcesssAndFormatData cv2 cfg2 = (.ok (some w), s) := by
    intro s w hs
    unfold Image.ProcesssAndFormatData
    simp only [hs]
  cases hfm : img.formatted with
  | some v0 =>
    have h1 : img.ProcesssAndFormatData cv cfg = (.ok (some v0), img) := by
      unfold Image.ProcesssAndFormatData
      simp only [hfm]
    rw [h1]
    refine ⟨⟨v0, hfm, hit img v0 hfm⟩, ?_⟩
    intro v hv
    simp only [Except.ok.injEq] at hv
    rw [← hv]
    exact hit img v0 hfm
  | none =>
    cases hp : ({ img with formatted := some [] } : Image).Process cv cfg with
    | error e =>
      have h1 : img.ProcesssAndFormatData cv cfg =
          (.error e, { img with formatted := some [] }) := by
        unfold Image.ProcesssAndFormatData
        simp only [hfm, hp]
      rw [h1]
      refine ⟨⟨[], rfl, hit _ [] rfl⟩, ?_⟩
      intro v hv
      cases hv
    | ok gc =>
      obtain ⟨g, color⟩ := gc
      have hfd := FormatDataForNn_some cv ({ img with formatted := some [] } : Image) g color [] rfl
      have h1 : img.ProcesssAndFormatData cv cfg =
          (.ok (some (format_planes cv g color)),
           { img with formatted := some (format_planes cv g color) }) := by
        unfold Image.ProcesssAndFormatData
        simp only [hfm, hp, hfd]
      rw [h1]
      refine ⟨⟨_, rfl, hit _ _ rfl⟩, ?_⟩
      intro v hv
      simp only [Except.ok.injEq] at hv
      rw [← hv]
      exact hit _ _ rfl

theorem ProcesssAndFormatData_fresh (cv : Cv) (cfg : ProcessingConfiguration) (img : Image)
    (g : Mat) (color : Option Chrominances) (hfm : img.formatted = none)
    (hp : ({ img with formatted := some [] } : Image).Process cv cfg = .ok (g, color)) :
    img.ProcesssAndFormatData cv cfg =
      (.ok (some (format_planes cv g color)),
       { img with formatted := some (format_planes cv g color) }) := by
  have hfd := FormatDataForNn_some cv ({ img with formatted := some [] } : Image) g color [] rfl
  unfold Image.ProcesssAndFormatData
  simp only [hfm, hp, hfd]

/-- C8, applied: a 2x2 grayscale image under the initial configuration; the first call
returns a vector and the second call returns the same one. -/
theorem ProcesssAndFormatData_cached_witness :
    ((Image.mk (Mat.blank 2 2 1) none none 0).ProcesssAndFormatData Cv.plain
        Image_cfg_initial).2.ProcesssAndFormatData Cv.plain cfg_color =
      (.ok (some [⟨0, by decide⟩, ⟨0, by decide⟩, ⟨0, by decide⟩, ⟨0, by decide⟩]),
       ((Image.mk (Mat.blank 2 2 1) none none 0).ProcesssAndFormatData Cv.plain
        Image_cfg_initial).2) :=
  (ProcesssAndFormatData_cached Cv.plain Cv.plain Image_cfg_initial cfg_color
    (Image.mk (Mat.blank 2 2 1) none none 0)).2 _ (by decide)

/-- C9, as stated, fails: a 3x3 colour image in colour mode is formatted into
`3*3 + 2*(2*2) = 17` elements, not `3*3 + 2*((3/2)*(3/2)) = 11`, because `resize` rounds
half of 3 to 2. -/
theorem color_3x3_image_has_17_elements :
    ∃ v, ((Image.mk (Mat.blank 3 3 3) none none 0).ProcesssAndFormatData Cv.plain cfg_color).1
        = .ok (some v) ∧ v.length = 17 ∧ v.length ≠ 3 * 3 + 2 * ((3 / 2) * (3 / 2)) :=
  ⟨List.replicate 17 ⟨0, by decide⟩, by decide, by decide, by decide⟩

/-- C9 (amended). For an 8-bit image of `H` rows and `W` columns held by a freshly constructed
`Image`, whatever the mean, filter and negative options: in grayscale mode (one channel)
`ProcesssAndFormatData()` returns exactly `H*W` elements; in colour mode (three channels,
`H, W ≥ 2`) it returns `H*W + 2*(r H * r W)` elements, where `r n` is `n/2` rounded to the
nearest integer (ties to even), which is `H*W + 2*((H/2)*(W/2))` when `H` and `W` are even. -/
theorem ProcesssAndFormatData_length (cv : Cv) (cfg : ProcessingConfiguration) (m : Mat)
    (label : Int) (img : Image) (himg : Image.of_mat m label = .ok img)
    (hdepth : m.depth = Depth.CV_8U) :
    (cfg.format = CV_LOAD_IMAGE_GRAYSCALE → m.channels = 1 →
      ∃ v, (img.ProcesssAndFormatData cv cfg).1 = .ok (some v) ∧ v.length = m.rows * m.cols) ∧
    (cfg.format = CV_LOAD_IMAGE_COLOR → m.channels = 3 → 2 ≤ m.rows → 2 ≤ m.cols →
      ∃ v, (img.ProcesssAndFormatData cv cfg).1 = .ok (some v) ∧
        v.length = m.rows * m.cols + 2 * (cvRound_half m.rows * cvRound_half m.cols) ∧
        (m.rows % 2 = 0 → m.cols % 2 = 0 →
          v.length = m.rows * m.cols + 2 * ((m.rows / 2) * (m.cols / 2)))) := by
  have himg2 : img = { original := m, processed := none, formatted := none, label := label } := by
    unfold Image.of_mat at himg
    split at himg
    · cases himg
    · simp only [Except.ok.injEq] at himg
      exact himg.symm
  subst himg2
  constructor
  · intro hf h1
    have hne : cfg.format ≠ CV_LOAD_IMAGE_COLOR := by rw [hf]; decide
    obtain ⟨g, hg, hp⟩ := Process_gray cv cfg
      { original := m, processed := none, formatted := some [], label := label } m.rows m.cols hne
      ⟨rfl, rfl, hdepth, h1⟩
    rw [ProcesssAndFormatData_fresh cv cfg _ g none rfl hg]
    refine ⟨_, rfl, ?_⟩
    simp only [format_planes, List.append_nil]
    exact length_formatted_plane cv g _ _ hp
  · intro hf h3 hr hc
    obtain ⟨g, c, hg, hp, hu, hv⟩ := Process_color cv cfg
      { original := m, processed := none, formatted := some [], label := label } hf h3 hdepth hr hc
    rw [ProcesssAndFormatData_fresh cv cfg _ g (some c) rfl hg]
    have hlen : (format_planes cv g (some c)).length =
        m.rows * m.cols + 2 * (cvRound_half m.rows * cvRound_half m.cols) := by
      simp only [format_planes, List.length_append]
      rw [length_formatted_plane cv g _ _ hp, length_formatted_plane cv c.u _ _ hu,
        length_formatted_plane cv c.v _ _ hv]
      ring
    refine ⟨_, rfl, hlen, ?_⟩
    intro he1 he2
    rw [hlen, cvRound_half_even _ he1, cvRound_half_even _ he2]

/-- C9 (amended), applied to a 4x6 colour image with all options on: 36 elements. -/
theorem ProcesssAndFormatData_length_witness :
    Image.of_mat (Mat.blank 4 6 3) 0 = .ok (Image.mk (Mat.blank 4 6 3) none none 0) ∧
    (Mat.blank 4 6 3).depth = Depth.CV_8U ∧
    ∃ v, ((Image.mk (Mat.blank 4 6 3) none none 0).ProcesssAndFormatData Cv.plain
        { format := CV_LOAD_IMAGE_COLOR, filter := true, filter_types := [median, gaussian, sobel],
          mean := true, negative := true, pca := false }).1 = .ok (some v) ∧
      v.length = 4 * 6 + 2 * ((4 / 2) * (6 / 2)) := by
  refine ⟨by decide, by decide, ?_⟩
  obtain ⟨v, h1, _, h3⟩ := (ProcesssAndFormatData_length Cv.plain
    { format := CV_LOAD_IMAGE_COLOR, filter := true, filter_types := [median, gaussian, sobel],
      mean := true, negative := true, pca := false }
    (Mat.blank 4 6 3) 0 (Image.mk (Mat.blank 4 6 3) none none 0) (by decide) (by decide)).2
    (by decide) (by decide) (by decide) (by decide)
  exact ⟨v, h1, h3 (by decide) (by decide)⟩

/-- C10, on the code: for every matrix with one channel `ConvertToYuv` lets the
`cv::Exception` of `cvtColor` escape; it does not throw `std::invalid_argument`. -/
theorem ConvertToYuv_single_channel (cv : Cv) (m : Mat) :
    ConvertToYuv cv { m with channels := 1 } = .error Error.cv_exception ∧
    ∀ what, ConvertToYuv cv { m with channels := 1 } ≠ .error (Error.invalid_argument what) := by
  have h : ConvertToYuv cv { m with channels := 1 } = .error Error.cv_exception := by
    unfold ConvertToYuv cvtColor
    simp
  refine ⟨h, ?_⟩
  intro what hw
  rw [h] at hw
  cases hw

/-! ## Evaluations of the loader on concrete corpora -/

/-- C2, on the code: `LoadNextImage` selects the overloads the wrong way round. For the image
at the cursor it returns the result of the plain `ProcesssAndFormatData()` when `cfg.pca` is
set and the result of `ProcesssAndFormatData(pca_vector)` when it is clear. -/
theorem LoadNextImage_overload (cv : Cv) (image_cfg : ProcessingConfiguration)
    (self : DataLoader) (img : Image) (hidx : 0 ≤ self.current_index)
    (himg : self.images.get? self.current_index.toNat = some img) :
    (self.LoadNextImage cv image_cfg).1 =
      if self.cfg.pca then (img.ProcesssAndFormatData cv image_cfg).1
      else (img.ProcesssAndFormatData_pca cv self.pca_vector).1 := by
  unfold DataLoader.LoadNextImage
  rw [if_neg (by omega)]
  simp only [himg]
  cases hp : self.cfg.pca with
  | true =>
    simp only [if_true]
    generalize img.ProcesssAndFormatData cv image_cfg = r
    obtain ⟨r1, r2⟩ := r
    cases r1 with
    | error e => rfl
    | ok v => simp only; split <;> rfl
  | false =>
    simp only [Bool.false_eq_true, if_false]
    generalize img.ProcesssAndFormatData_pca cv self.pca_vector = r
    obtain ⟨r1, r2⟩ := r
    cases r1 with
    | error e => rfl
    | ok v => simp only; split <;> rfl

/-- C2, at the failing input: a loader without PCA, after one `ReadData()` on two 1x1
images, cursor at 0. `LoadNextImage` ends in the PCA overload, which dereferences the unset
`processed`, while `ProcesssAndFormatData()` on the same image returns its one-element
vector. -/
theorem LoadNextImage_overload_witness :
    (loaded 1 ProcessingConfiguration.default).cfg.pca = false ∧
    (loaded 1 ProcessingConfiguration.default).images.get?
        (loaded 1 ProcessingConfiguration.default).current_index.toNat =
      some { original := Mat.blank 1 1 1, processed := none, formatted := none, label := 0 } ∧
    ((loaded 1 ProcessingConfiguration.default).LoadNextImage Cv.plain
        (image_cfg_for ProcessingConfiguration.default)).1 = .error Error.null_pointer ∧
    ((Image.mk (Mat.blank 1 1 1) none none 0).ProcesssAndFormatData Cv.plain
        (image_cfg_for ProcessingConfiguration.default)).1 = .ok (some [⟨0, by decide⟩]) :=
  ⟨by decide, by decide,
   (LoadNextImage_overload Cv.plain (image_cfg_for ProcessingConfiguration.default)
      (loaded 1 ProcessingConfiguration.default)
      { original := Mat.blank 1 1 1, processed := none, formatted := none, label := 0 }
      (by decide) (by decide)).trans (by decide),
   by decide⟩

/-- C3, on the code: category 0 holds one image of 1 pixel and category 1 one image of 4
pixels, and `ReadData()` returns 2 and stores both; `data_dimension` starts again at -1 for
every category. -/
theorem ReadData_accepts_sizes_differing_across_categories :
    ((loader_for ProcessingConfiguration.default).ReadData Cv.plain (corpus 2)
        (image_cfg_for ProcessingConfiguration.default) false).1 = .ok 2 ∧
    (loaded 2 ProcessingConfiguration.default).images.map Image.GetSize = [1, 4] ∧
    (loaded 2 ProcessingConfiguration.default).images.map Image.GetLabel = [0, 1] := by
  decide

/-- C4, on the code: a second `ReadData()` on the unchanged two-image corpus appends the two
images again; the loader then holds 4 images while the call returns 2 and `GetNumImages()`
is 2. -/
theorem ReadData_twice_appends_again :
    (loaded 1 ProcessingConfiguration.default).images.length = 2 ∧
    (loaded 1 ProcessingConfiguration.default).GetNumImages = 2 ∧
    ((loaded 1 ProcessingConfiguration.default).ReadData Cv.plain (corpus 1)
        (image_cfg_for ProcessingConfiguration.default) false).1 = .ok 2 ∧
    ((loaded 1 ProcessingConfiguration.default).ReadData Cv.plain (corpus 1)
        (image_cfg_for ProcessingConfiguration.default) false).2.images.length = 4 ∧
    ((loaded 1 ProcessingConfiguration.default).ReadData Cv.plain (corpus 1)
        (image_cfg_for ProcessingConfiguration.default) false).2.GetNumImages = 2 := by
  decide

/-- C6, on the code: with the default extension list `ReadFilenames` keeps `notes.jpg.txt`,
whose extension `.txt` is not an allowed extension, because `find` accepts `.jpg` anywhere
in the name. -/
theorem ReadFilenames_keeps_wrong_extension :
    (loader_for ProcessingConfiguration.default).ReadFilenames folder_with_text_file "root/0/"
      = .ok ["root/0/a.png", "root/0/notes.jpg.txt"] ∧
    spec_extension "notes.jpg.txt".data = ".txt".data ∧
    ".txt" ∉ (loader_for ProcessingConfiguration.default).allowed_extentions := by
  decide

/-! ## Scanning the corpus -/

theorem ReadFilenames_category (fs : FileSystem) (self : DataLoader) (i : Nat) :
    self.ReadFilenames fs (category_dir self.path i) =
      if accepted_files fs self.path self.allowed_extentions i = [] then
        .error (Error.invalid_argument ("There is no folder with a given path (" ++
          category_dir self.path i ++ ") or it is empty"))
      else .ok (accepted_files fs self.path self.allowed_extentions i) := by
  unfold DataLoader.ReadFilenames accepted_files
  cases h : fs.find_files (category_dir self.path i ++ "/*") with
  | nil => simp [ReadFilenames_loop]
  | cons e es =>
    simp only [List.isEmpty_iff]

theorem of_path_error (fs : FileSystem) (image_cfg : ProcessingConfiguration) (file : String)
    (label : Int) (e : Error) (h : Image.of_path fs image_cfg file label = .error e) :
    ∃ what, e = Error.invalid_argument what := by
  unfold Image.of_path at h
  simp only at h
  split at h
  · simp only [Except.error.injEq] at h
    exact ⟨_, h.symm⟩
  · cases h

theorem of_path_ok (fs : FileSystem) (image_cfg : ProcessingConfiguration) (file : String)
    (label : Int) (img : Image) (h : Image.of_path fs image_cfg file label = .ok img) :
    img.label = label ∧ img.formatted = none ∧ img.processed = none := by
  unfold Image.of_path at h
  simp only at h
  split at h
  · cases h
  · simp only [Except.ok.injEq] at h
    subst h
    exact ⟨rfl, rfl, rfl⟩

theorem ReadAllFromDirectory_loop_spec (fs : FileSystem) (image_cfg : ProcessingConfiguration)
    (label : Int) (filenames : List String) :
    ∀ (d : Int) (images : List Image),
      (∀ e, (ReadAllFromDirectory_loop fs image_cfg label filenames d images).1 = .error e →
        ∃ what, e = Error.invalid_argument what) ∧
      ((ReadAllFromDirectory_loop fs image_cfg label filenames d images).1 = .ok () →
        ∃ new, (ReadAllFromDirectory_loop fs image_cfg label filenames d images).2 = images ++ new ∧
          new.length = filenames.length ∧
          ∀ img ∈ new, img.label = label ∧ img.formatted = none ∧ img.processed = none) := by
  induction filenames with
  | nil =>
    intro d images
    refine ⟨?_, ?_⟩
    · intro e he
      simp [ReadAllFromDirectory_loop] at he
    · intro _
      exact ⟨[], by simp [ReadAllFromDirectory_loop], rfl, by simp⟩
  | cons file rest ih =>
    intro d images
    unfold ReadAllFromDirectory_loop
    cases himg : Image.of_path fs image_cfg file label with
    | error e0 =>
      simp only
      refine ⟨?_, ?_⟩
      · intro e he
        simp only [Except.error.injEq] at he
        subst he
        exact of_path_error fs image_cfg file label _ himg
      · intro h
        cases h
    | ok img =>
      simp only
      have hfresh := of_path_ok fs image_cfg file label img himg
      split
      · refine ⟨?_, ?_⟩
        · intro e he
          simp only [Except.error.injEq] at he
          exact ⟨_, he.symm⟩
        · intro h
          cases h
      · obtain ⟨ih1, ih2⟩ := ih img.GetSize (images ++ [img])
        refine ⟨ih1, ?_⟩
        intro hok
        obtain ⟨new, hnew, hlen, hall⟩ := ih2 hok
        refine ⟨img :: new, ?_, ?_, ?_⟩
        · rw [hnew]; simp
        · simp [hlen]
        · intro x hx
          rcases List.mem_cons.mp hx with rfl | hx
          · exact hfresh
          · exact hall x hx

theorem ReadAllFromDirectory_spec (fs : FileSystem) (image_cfg : ProcessingConfiguration)
    (self : DataLoader) (filenames : List String) (label : Int) :
    (self.ReadAllFromDirectory fs image_cfg filenames label).2 =
      { self with images := (self.ReadAllFromDirectory fs image_cfg filenames label).2.images } ∧
    (∀ e, (self.ReadAllFromDirectory fs image_cfg filenames label).1 = .error e →
      ∃ what, e = Error.invalid_argument what) ∧
    (∀ k, (self.ReadAllFromDirectory fs image_cfg filenames label).1 = .ok k →
      k = static_cast_int (filenames.length : Int) ∧
      ∃ new, (self.ReadAllFromDirectory fs image_cfg filenames label).2.images = self.images ++ new ∧
        new.length = filenames.length ∧
        ∀ img ∈ new, img.label = label ∧ img.formatted = none ∧ img.processed = none) := by
  obtain ⟨h1, h2⟩ := ReadAllFromDirectory_loop_spec fs image_cfg label filenames (-1) self.images
  unfold DataLoader.ReadAllFromDirectory
  generalize ReadAllFromDirectory_loop fs image_cfg label filenames (-1) self.images = r at h1 h2
  obtain ⟨r1, r2⟩ := r
  cases r1 with
  | error e0 =>
    refine ⟨rfl, ?_, ?_⟩
    · intro e he
      simp only [Except.error.injEq] at he
      exact h1 e (by rw [he])
    · intro k hk
      cases hk
  | ok u =>
    refine ⟨rfl, ?_, ?_⟩
    · intro e he
      cases he
    · intro k hk
      simp only [Except.ok.injEq] at hk
      exact ⟨hk.symm, h2 rfl⟩

theorem ReadData_loop_spec (fs : FileSystem) (image_cfg : ProcessingConfiguration)
    (cats : List Nat) :
    ∀ (n : Int) (self : DataLoader),
      (ReadData_loop fs image_cfg cats n self).2 =
        { self with images := (ReadData_loop fs image_cfg cats n self).2.images } ∧
      (∀ e, (ReadData_loop fs image_cfg cats n self).1 = .error e →
        ∃ what, e = Error.invalid_argument what) ∧
      ((∃ i ∈ cats, accepted_files fs self.path self.allowed_extentions i = []) →
        ∃ e, (ReadData_loop fs image_cfg cats n self).1 = .error e) ∧
      (∀ m, (ReadData_loop fs image_cfg cats n self).1 = .ok m →
        ∃ new, (ReadData_loop fs image_cfg cats n self).2.images = self.images ++ new ∧
          new.map Image.GetLabel = cats.flatMap (fun i => List.replicate
            (accepted_files fs self.path self.allowed_extentions i).length (i : Int)) ∧
          (∀ img ∈ new, img.formatted = none ∧ img.processed = none) ∧
          (0 ≤ n → n + ((cats.map (fun i =>
              (accepted_files fs self.path self.allowed_extentions i).length)).sum : Nat)
                < 2147483648 →
            m = n + ((cats.map (fun i =>
              (accepted_files fs self.path self.allowed_extentions i).length)).sum : Nat))) := by
  induction cats with
  | nil =>
    intro n self
    refine ⟨rfl, ?_, ?_, ?_⟩
    · intro e he
      cases he
    · rintro ⟨i, hi, _⟩
      cases hi
    · intro m hm
      simp only [ReadData_loop, Except.ok.injEq] at hm
      refine ⟨[], by simp [ReadData_loop], by simp, by simp, ?_⟩
      intro _ _
      simp [hm]
  | cons i rest ih =>
    intro n self
    have hdir : self.path ++ toString i ++ "/" = category_dir self.path i := rfl
    unfold ReadData_loop
    rw [hdir, ReadFilenames_category]
    by_cases hacc : accepted_files fs self.path self.allowed_extentions i = []
    · rw [if_pos hacc]
      refine ⟨rfl, ?_, ?_, ?_⟩
      · intro e he
        simp only [Except.error.injEq] at he
        exact ⟨_, he.symm⟩
      · intro _
        exact ⟨_, rfl⟩
      · intro m hm
        cases hm
    · rw [if_neg hacc]
      simp only
      obtain ⟨hf, he1, hk1⟩ := ReadAllFromDirectory_spec fs image_cfg self
        (accepted_files fs self.path self.allowed_extentions i) (i : Int)
      generalize self.ReadAllFromDirectory fs image_cfg
        (accepted_files fs self.path self.allowed_extentions i) (i : Int) = r at hf he1 hk1
      obtain ⟨r1, self1⟩ := r
      cases r1 with
      | error e0 =>
        simp only at hf
        refine ⟨hf, ?_, ?_, ?_⟩
        · intro e he
          simp only [Except.error.injEq] at he
          exact he1 e (by rw [he])
        · intro _
          exact ⟨_, rfl⟩
        · intro m hm
          cases hm
      | ok k =>
        simp only at hf
        obtain ⟨hk, new1, hnew1, hlen1, hall1⟩ := hk1 k rfl
        simp only at hnew1
        have hpath : self1.path = self.path := by rw [hf]
        have hallow : self1.allowed_extentions = self.allowed_extentions := by rw [hf]
        obtain ⟨ihf, ihe, ihm, ihs⟩ := ih (static_cast_int (n + k)) self1
        rw [hpath, hallow] at ihm ihs
        simp only
        refine ⟨?_, ihe, ?_, ?_⟩
        · rw [ihf, hf]
        · rintro ⟨j, hj, hj0⟩
          rcases List.mem_cons.mp hj with rfl | hj
          · exact absurd hj0 hacc
          · exact ihm ⟨j, hj, hj0⟩
        · intro m hm
          obtain ⟨new2, hnew2, hlab2, hall2, hsum2⟩ := ihs m hm
          refine ⟨new1 ++ new2, ?_, ?_, ?_, ?_⟩
          · rw [hnew2, hnew1, List.append_assoc]
          · rw [List.map_append, hlab2, List.flatMap_cons]
            congr 1
            rw [List.eq_replicate_iff]
            refine ⟨by simp [hlen1], ?_⟩
            intro b hb
            obtain ⟨img, himg, rfl⟩ := List.mem_map.mp hb
            exact (hall1 img himg).1
          · intro img himg
            rcases List.mem_append.mp himg with h | h
            · exact (hall1 img h).2
            · exact hall2 img h
          · intro hn hlt
            simp only [List.map_cons, List.sum_cons, Nat.cast_add] at hlt ⊢
            have hk' : k = ((accepted_files fs self.path self.allowed_extentions i).length : Int) := by
              rw [hk]
              exact static_cast_int_of_lt _ (by omega)
            have hnk : static_cast_int (n + k) = n + k := by
              unfold static_cast_int
              exact int_of_bits_bits_of_int _ (by omega) (by omega)
            rw [hsum2 (by rw [hnk]; omega) (by rw [hnk]; omega), hnk, hk']
            ring

theorem shuffle_list_perm {α : Type} (cv : Cv) (l : List α) : (shuffle_list cv l).Perm l := by
  have h := Equiv.Perm.ofFn_comp_perm (cv.shuffle_perm l.length) l.get
  rw [List.ofFn_get] at h
  exact h

theorem PcaPrepare_label (cv : Cv) (image_cfg : ProcessingConfiguration) (img : Image) :
    (img.PcaPrepare cv image_cfg).2.label = img.label := by
  unfold Image.PcaPrepare
  split <;> rfl

theorem PcaCalculate_loop_labels (cv : Cv) (image_cfg : ProcessingConfiguration)
    (images : List Image) :
    ∀ m, (PcaCalculate_loop cv image_cfg images m).2.map Image.GetLabel =
      images.map Image.GetLabel := by
  induction images with
  | nil => intro m; rfl
  | cons img rest ih =>
    intro m
    have hl := PcaPrepare_label cv image_cfg img
    unfold PcaCalculate_loop
    generalize img.PcaPrepare cv image_cfg = r at hl
    obtain ⟨r1, img1⟩ := r
    simp only at hl
    cases r1 with
    | error e => simp [Image.GetLabel, hl]
    | ok row =>
      simp only
      cases m.push_back row with
      | error e => simp [Image.GetLabel, hl]
      | ok m1 =>
        simp only [List.map_cons, ih m1]
        simp [Image.GetLabel, hl]

theorem refit_pca_spec (cv : Cv) (image_cfg : ProcessingConfiguration) (self : DataLoader) :
    (self.refit_pca cv image_cfg).2.images.map Image.GetLabel = self.images.map Image.GetLabel ∧
    (self.refit_pca cv image_cfg).2.path = self.path ∧
    (self.refit_pca cv image_cfg).2.num_categories = self.num_categories ∧
    (self.refit_pca cv image_cfg).2.cfg = self.cfg ∧
    (self.refit_pca cv image_cfg).2.allowed_extentions = self.allowed_extentions ∧
    (self.refit_pca cv image_cfg).2.num_images = self.num_images ∧
    (self.refit_pca cv image_cfg).2.current_index = self.current_index := by
  unfold DataLoader.refit_pca
  by_cases hp : self.cfg.pca
  · rw [if_pos hp]
    unfold DataLoader.PcaCalculate
    have hl := PcaCalculate_loop_labels cv image_cfg self.images Mat.nil
    generalize PcaCalculate_loop cv image_cfg self.images Mat.nil = r at hl
    obtain ⟨r1, images1⟩ := r
    simp only at hl
    cases r1 with
    | error e => exact ⟨hl, rfl, rfl, rfl, rfl, rfl, rfl⟩
    | ok m =>
      simp only
      cases PcaBase cv m 100 with
      | error e => exact ⟨hl, rfl, rfl, rfl, rfl, rfl, rfl⟩
      | ok p => exact ⟨hl, rfl, rfl, rfl, rfl, rfl, rfl⟩
  · rw [if_neg hp]
    exact ⟨rfl, rfl, rfl, rfl, rfl, rfl, rfl⟩

theorem refit_pca_off (cv : Cv) (image_cfg : ProcessingConfiguration) (self : DataLoader)
    (h : self.cfg.pca = false) : self.refit_pca cv image_cfg = (.ok (), self) := by
  unfold DataLoader.refit_pca
  simp [h]

theorem length_scan_labels (fs : FileSystem) (self : DataLoader) :
    (scan_labels fs self).length = total_accepted fs self := by
  unfold scan_labels total_accepted
  rw [List.length_flatMap]
  congr 1
  apply List.map_congr_left
  intro i _
  simp

theorem mem_scan_labels (fs : FileSystem) (self : DataLoader) (x : Int)
    (h : x ∈ scan_labels fs self) : ∃ i : Nat, x = (i : Int) ∧ (i : Int) < self.num_categories := by
  unfold scan_labels at h
  obtain ⟨i, hi, hx⟩ := List.mem_flatMap.mp h
  rw [List.mem_range] at hi
  rw [List.mem_replicate] at hx
  exact ⟨i, hx.2, by omega⟩

/-- What a `ReadData` call that returned has done to the loader. -/
theorem ReadData_ok_spec (cv : Cv) (fs : FileSystem) (image_cfg : ProcessingConfiguration)
    (self : DataLoader) (random_shuffle : Bool) (n : Int)
    (h : (self.ReadData cv fs image_cfg random_shuffle).1 = .ok n) :
    (ReadData_loop fs image_cfg (List.range self.num_categories.toNat) 0 self).1 = .ok n ∧
    (self.ReadData cv fs image_cfg random_shuffle).2.num_images = n ∧
    ((self.ReadData cv fs image_cfg random_shuffle).2.images.map Image.GetLabel).Perm
      (self.images.map Image.GetLabel ++ scan_labels fs self) ∧
    (self.ReadData cv fs image_cfg random_shuffle).2.cfg = self.cfg ∧
    (total_accepted fs self < 2147483648 → n = (total_accepted fs self : Int)) := by
  obtain ⟨hf, _, _, hs⟩ := ReadData_loop_spec fs image_cfg (List.range self.num_categories.toNat)
    0 self
  unfold DataLoader.ReadData at h ⊢
  generalize ReadData_loop fs image_cfg (List.range self.num_categories.toNat) 0 self = r
    at hf hs h ⊢
  obtain ⟨r1, self1⟩ := r
  cases r1 with
  | error e => cases h
  | ok nf =>
    simp only at hf h ⊢
    obtain ⟨hl2, _, _, hc2, _, _, _⟩ := refit_pca_spec cv image_cfg self1
    generalize self1.refit_pca cv image_cfg = q at hl2 hc2 h ⊢
    obtain ⟨q1, self2⟩ := q
    cases q1 with
    | error e => cases h
    | ok u =>
      simp only [Except.ok.injEq] at hl2 hc2 h ⊢
      subst h
      obtain ⟨new, hnew, hlab, _, hsum⟩ := hs nf rfl
      simp only at hnew
      have hlabels : (self2.images.map Image.GetLabel) =
          self.images.map Image.GetLabel ++ scan_labels fs self := by
        rw [hl2, hnew, List.map_append, hlab]
        rfl
      refine ⟨rfl, rfl, ?_, ?_, ?_⟩
      · cases random_shuffle with
        | false =>
          simp only [Bool.false_eq_true, if_false]
          rw [hlabels]
        | true =>
          simp only [if_true, DataLoader.ShuffleImages]
          rw [← hlabels]
          exact (shuffle_list_perm cv self2.images).map _
      · cases random_shuffle with
        | false => simp only [Bool.false_eq_true, if_false]; rw [hc2, hf]
        | true => simp only [if_true, DataLoader.ShuffleImages]; rw [hc2, hf]
      · intro hlt
        have := hsum (le_refl 0) (by unfold total_accepted at hlt; omega)
        rw [this]
        unfold total_accepted
        simp

theorem create_ok (path : String) (num_categories : Int) (cfg : ProcessingConfiguration)
    (extensions : List String) (image_cfg0 image_cfg1 : ProcessingConfiguration)
    (self : DataLoader)
    (h : DataLoader.create path num_categories cfg extensions image_cfg0 = (.ok self, image_cfg1)) :
    self = { images := [], path := path, num_categories := num_categories, cfg := cfg,
             allowed_extentions := extensions, num_images := 0, current_index := 0,
             pca_vector := PCA.nil } := by
  unfold DataLoader.create at h
  simp only at h
  split at h
  · cases h
  · split at h
    · cases h
    · simp only [Prod.mk.injEq, Except.ok.injEq] at h
      exact h.1.symm

/-- C5. `ReadData` throws `std::invalid_argument` whenever the folder of some category index
below `num_categories` is missing (`FindFirstFile` fails) or holds no file that passes the
filter of `ReadFilenames`; and when `ReadData` returns, every category index below
`num_categories` had an accepted file and is the label of an image the call added (the
labels held afterwards are those held before plus the labels of the scan). -/
theorem ReadData_category_folders (cv : Cv) (fs : FileSystem)
    (image_cfg : ProcessingConfiguration) (self : DataLoader) (random_shuffle : Bool) :
    ((∃ i : Nat, (i : Int) < self.num_categories ∧
        (fs.find_files (category_dir self.path i ++ "/*") = [] ∨
          accepted_files fs self.path self.allowed_extentions i = [])) →
      ∃ what, (self.ReadData cv fs image_cfg random_shuffle).1 =
        .error (Error.invalid_argument what)) ∧
    (∀ n, (self.ReadData cv fs image_cfg random_shuffle).1 = .ok n →
      ((self.ReadData cv fs image_cfg random_shuffle).2.images.map Image.GetLabel).Perm
        (self.images.map Image.GetLabel ++ scan_labels fs self) ∧
      ∀ i : Nat, (i : Int) < self.num_categories →
        accepted_files fs self.path self.allowed_extentions i ≠ [] ∧
        (i : Int) ∈ scan_labels fs self) := by
  obtain ⟨_, he, hm, _⟩ := ReadData_loop_spec fs image_cfg (List.range self.num_categories.toNat)
    0 self
  constructor
  · rintro ⟨i, hi, hmiss⟩
    have hacc : accepted_files fs self.path self.allowed_extentions i = [] := by
      rcases hmiss with h | h
      · unfold accepted_files
        rw [h]
        rfl
      · exact h
    obtain ⟨e, hloop⟩ := hm ⟨i, List.mem_range.mpr (by omega), hacc⟩
    obtain ⟨what, hwhat⟩ := he e hloop
    refine ⟨what, ?_⟩
    unfold DataLoader.ReadData
    generalize ReadData_loop fs image_cfg (List.range self.num_categories.toNat) 0 self = r
      at hloop
    obtain ⟨r1, self1⟩ := r
    simp only at hloop
    subst hloop
    simp only [hwhat]
  · intro n hn
    obtain ⟨hloop, _, hperm, _, _⟩ := ReadData_ok_spec cv fs image_cfg self random_shuffle n hn
    refine ⟨hperm, ?_⟩
    intro i hi
    have hacc : accepted_files fs self.path self.allowed_extentions i ≠ [] := by
      intro h0
      obtain ⟨e, herr⟩ := hm ⟨i, List.mem_range.mpr (by omega), h0⟩
      rw [hloop] at herr
      cases herr
    refine ⟨hacc, ?_⟩
    unfold scan_labels
    rw [List.mem_flatMap]
    refine ⟨i, List.mem_range.mpr (by omega), ?_⟩
    rw [List.mem_replicate]
    exact ⟨fun h0 => hacc (List.length_eq_zero.mp h0), rfl⟩

/-- C5, applied: the two-folder corpus read by a loader of three categories (folder `root/2/`
is missing) makes `ReadData` throw `std::invalid_argument`; read by a loader of two
categories, both labels 0 and 1 are added. -/
theorem ReadData_category_folders_witness :
    (∃ what, (loader_of_three.ReadData Cv.plain (corpus 1) Image_cfg_initial false).1 =
      .error (Error.invalid_argument what)) ∧
    (((0 : Nat) : Int) ∈ scan_labels (corpus 1) (loader_for ProcessingConfiguration.default) ∧
     ((1 : Nat) : Int) ∈ scan_labels (corpus 1) (loader_for ProcessingConfiguration.default)) :=
  ⟨(ReadData_category_folders Cv.plain (corpus 1) Image_cfg_initial loader_of_three false).1
      ⟨2, by decide, Or.inl (by decide)⟩,
   ((ReadData_category_folders Cv.plain (corpus 1) Image_cfg_initial
      (loader_for ProcessingConfiguration.default) false).2 2 (by decide)).2 0 (by decide) |>.2,
   ((ReadData_category_folders Cv.plain (corpus 1) Image_cfg_initial
      (loader_for ProcessingConfiguration.default) false).2 2 (by decide)).2 1 (by decide) |>.2⟩

/-- C7. On a freshly constructed loader a `ReadData` call that returns, returns the number
of accepted files summed over all categories (a number that fits the `int` it is returned
in); `GetNumImages()` is then that number, and so is the number of images held. -/
theorem ReadData_returns_total (cv : Cv) (fs : FileSystem) (path : String) (num_categories : Int)
    (cfg : ProcessingConfiguration) (extensions : List String)
    (image_cfg0 image_cfg1 image_cfg : ProcessingConfiguration) (self self1 : DataLoader)
    (random_shuffle : Bool) (n : Int)
    (hnew : DataLoader.create path num_categories cfg extensions image_cfg0 =
      (.ok self, image_cfg1))
    (hread : self.ReadData cv fs image_cfg random_shuffle = (.ok n, self1))
    (hfit : total_accepted fs self < 2147483648) :
    n = (total_accepted fs self : Int) ∧ self1.GetNumImages = n ∧
      (self1.images.length : Int) = n := by
  have hself := create_ok _ _ _ _ _ _ _ hnew
  have h1 : (self.ReadData cv fs image_cfg random_shuffle).1 = .ok n := by rw [hread]
  obtain ⟨_, hnum, hperm, _, htot⟩ := ReadData_ok_spec cv fs image_cfg self random_shuffle n h1
  rw [hread] at hnum hperm
  simp only at hnum hperm
  have himgs : self.images = [] := by rw [hself]
  rw [himgs, List.map_nil, List.nil_append] at hperm
  have hlen := hperm.length_eq
  rw [List.length_map, length_scan_labels] at hlen
  refine ⟨htot hfit, hnum, ?_⟩
  rw [hlen, htot hfit]

/-- C7, applied to the corpus of two folders with one image each: `ReadData()` returns 2. -/
theorem ReadData_returns_total_witness :
    DataLoader.create "root/" 2 ProcessingConfiguration.default default_extensions
        Image_cfg_initial =
      (.ok (loader_for ProcessingConfiguration.default),
       image_cfg_for ProcessingConfiguration.default) ∧
    (loader_for ProcessingConfiguration.default).ReadData Cv.plain (corpus 1)
        (image_cfg_for ProcessingConfiguration.default) false =
      (.ok 2, loaded 1 ProcessingConfiguration.default) ∧
    (2 : Int) = (total_accepted (corpus 1) (loader_for ProcessingConfiguration.default) : Int) ∧
    (loaded 1 ProcessingConfiguration.default).GetNumImages = 2 ∧
    ((loaded 1 ProcessingConfiguration.default).images.length : Int) = 2 :=
  ⟨by decide, by decide,
   ReadData_returns_total Cv.plain (corpus 1) "root/" 2 ProcessingConfiguration.default
     default_extensions Image_cfg_initial (image_cfg_for ProcessingConfiguration.default)
     (image_cfg_for ProcessingConfiguration.default) (loader_for ProcessingConfiguration.default)
     (loaded 1 ProcessingConfiguration.default) false 2 (by decide) (by decide) (by decide)⟩

/-! ## The binary dataset file -/

theorem ProcesssAndFormatData_label (cv : Cv) (cfg : ProcessingConfiguration) (img : Image) :
    (img.ProcesssAndFormatData cv cfg).2.label = img.label := by
  cases hfm : img.formatted with
  | some v0 =>
    unfold Image.ProcesssAndFormatData
    simp only [hfm]
  | none =>
    cases hp : ({ img with formatted := some [] } : Image).Process cv cfg with
    | error e =>
      unfold Image.ProcesssAndFormatData
      simp only [hfm, hp]
    | ok gc =>
      obtain ⟨g, color⟩ := gc
      rw [ProcesssAndFormatData_fresh cv cfg img g color hfm hp]

theorem save_vectors_spec (cv : Cv) (image_cfg cfg : ProcessingConfiguration) (pca_vector : PCA)
    (hpca : cfg.pca = false) (images : List Image) :
    (save_vectors cv image_cfg cfg pca_vector images).2.1.map Image.GetLabel =
      images.map Image.GetLabel ∧
    ((save_vectors cv image_cfg cfg pca_vector images).1 = .ok () →
      ∃ vs, List.Forall₂ (fun img v => (img.ProcesssAndFormatData cv image_cfg).1 = .ok (some v))
          images vs ∧
        (save_vectors cv image_cfg cfg pca_vector images).2.2 = encode_vectors vs) := by
  induction images with
  | nil =>
    refine ⟨rfl, ?_⟩
    intro _
    exact ⟨[], List.Forall₂.nil, rfl⟩
  | cons img rest ih =>
    obtain ⟨ih1, ih2⟩ := ih
    have hl := ProcesssAndFormatData_label cv image_cfg img
    unfold save_vectors
    simp only [hpca, Bool.false_eq_true, if_false]
    generalize hr : img.ProcesssAndFormatData cv image_cfg = r at hl
    obtain ⟨r1, img1⟩ := r
    simp only at hl
    cases r1 with
    | error e =>
      simp only [List.map_cons, Image.GetLabel, hl, true_and]
      intro h
      cases h
    | ok ov =>
      cases ov with
      | none =>
        simp only [List.map_cons, Image.GetLabel, hl, true_and]
        intro h
        cases h
      | some v =>
        simp only [List.map_cons, ih1]
        refine ⟨by simp [Image.GetLabel, hl], ?_⟩
        intro hok
        obtain ⟨vs, hall, henc⟩ := ih2 hok
        refine ⟨v :: vs, List.Forall₂.cons (by rw [hr]) hall, ?_⟩
        rw [henc]
        simp [encode_vectors]

theorem read_floats_exact (v : List float) :
    ∀ (f : float) (rest : List Word),
      ∃ f1, read_floats v.length f (v ++ rest) = (v, f1, rest) := by
  induction v with
  | nil =>
    intro f rest
    exact ⟨f, rfl⟩
  | cons w ws ih =>
    intro f rest
    obtain ⟨f1, hf1⟩ := ih w rest
    refine ⟨f1, ?_⟩
    simp only [List.length_cons, List.cons_append, read_floats]
    change (w :: (read_floats ws.length w (ws ++ rest)).1,
      (read_floats ws.length w (ws ++ rest)).2.1, (read_floats ws.length w (ws ++ rest)).2.2) = _
    rw [hf1]

theorem read_records_exact (vs : List (List float)) (hlen : ∀ v ∈ vs, v.length < 2147483648) :
    ∀ (f : float) (rest : List Word),
      ∃ f1, read_records (List.replicate vs.length []) f (encode_vectors vs ++ rest) =
        (vs, f1, rest) := by
  induction vs with
  | nil =>
    intro f rest
    exact ⟨f, rfl⟩
  | cons v vs ih =>
    intro f rest
    have hv : v.length < 2147483648 := hlen v (List.mem_cons_self _ _)
    have hsize : (int_of_bits (bits_of_int (static_cast_int (v.length : Int)))).toNat =
        v.length := by
      rw [static_cast_int_of_lt _ hv, int_of_bits_bits_of_int _ (by omega) (by omega)]
      exact Int.toNat_ofNat _
    obtain ⟨f1, hf1⟩ := read_floats_exact v f (encode_vectors vs ++ rest)
    obtain ⟨f2, hf2⟩ := ih (fun x hx => hlen x (List.mem_cons_of_mem _ hx)) f1 rest
    refine ⟨f2, ?_⟩
    have henc : encode_vectors (v :: vs) ++ rest =
        bits_of_int (static_cast_int (v.length : Int)) :: (v ++ (encode_vectors vs ++ rest)) := by
      simp [encode_vectors]
    rw [henc]
    simp only [List.length_cons, List.replicate_succ, read_records, read_int, hsize, hf1, hf2,
      List.nil_append]

theorem read_labels_exact (ls : List Int)
    (hrange : ∀ l ∈ ls, -2147483648 ≤ l ∧ l < 2147483648) :
    ∀ rest : List Word,
      read_labels (List.replicate ls.length 0) (ls.map bits_of_int ++ rest) = (ls, rest) := by
  induction ls with
  | nil =>
    intro rest
    rfl
  | cons l ls ih =>
    intro rest
    have hl := hrange l (List.mem_cons_self _ _)
    have ih1 := ih (fun x hx => hrange x (List.mem_cons_of_mem _ hx)) rest
    simp only [List.length_cons, List.replicate_succ, List.map_cons, List.cons_append,
      read_labels, read_int, ih1, int_of_bits_bits_of_int l hl.1 hl.2]

theorem vector_resize_nil {α : Type} (n : Nat) (fill : α) :
    vector_resize ([] : List α) n fill = List.replicate n fill := by
  simp [vector_resize]

theorem num_categories_le_total (fs : FileSystem) (image_cfg : ProcessingConfiguration)
    (self : DataLoader) (n : Int)
    (h : (ReadData_loop fs image_cfg (List.range self.num_categories.toNat) 0 self).1 = .ok n) :
    self.num_categories.toNat ≤ total_accepted fs self := by
  obtain ⟨_, _, hm, _⟩ := ReadData_loop_spec fs image_cfg (List.range self.num_categories.toNat)
    0 self
  unfold total_accepted
  have hle := List.length_le_sum_of_one_le
    ((List.range self.num_categories.toNat).map
      (fun i => (accepted_files fs self.path self.allowed_extentions i).length))
    (by
      intro x hx
      obtain ⟨i, hi, rfl⟩ := List.mem_map.mp hx
      by_contra hlt
      have h0 : accepted_files fs self.path self.allowed_extentions i = [] :=
        List.length_eq_zero.mp (by omega)
      obtain ⟨e, herr⟩ := hm ⟨i, hi, h0⟩
      rw [h] at herr
      cases herr)
  simpa using hle

theorem forall₂_mem_right {α β : Type} {R : α → β → Prop} {l1 : List α} {l2 : List β}
    (h : List.Forall₂ R l1 l2) : ∀ b ∈ l2, ∃ a ∈ l1, R a b := by
  induction h with
  | nil =>
    intro b hb
    cases hb
  | cons hab _ ih =>
    intro b hb
    rcases List.mem_cons.mp hb with rfl | hb
    · exact ⟨_, List.mem_cons_self _ _, hab⟩
    · obtain ⟨a, ha, hr⟩ := ih b hb
      exact ⟨a, List.mem_cons_of_mem _ ha, hr⟩

/-- The file `SaveFormattedData` leaves behind when it returns and PCA is off. -/
theorem SaveFormattedData_ok_spec (cv : Cv) (image_cfg : ProcessingConfiguration)
    (self self2 : DataLoader) (p : String) (disk disk2 : Disk) (hpca : self.cfg.pca = false)
    (hsave : self.SaveFormattedData cv image_cfg p disk = (.ok (), self2, disk2)) :
    ∃ vs, List.Forall₂ (fun img v => (img.ProcesssAndFormatData cv image_cfg).1 = .ok (some v))
        self.images vs ∧
      disk2 p = some (bits_of_int self.num_images ::
        (encode_vectors vs ++ (self.images.map Image.GetLabel).map bits_of_int)) := by
  unfold DataLoader.SaveFormattedData at hsave
  rw [refit_pca_off cv image_cfg self hpca] at hsave
  simp only at hsave
  obtain ⟨hlab, hok⟩ := save_vectors_spec cv image_cfg self.cfg self.pca_vector hpca self.images
  generalize save_vectors cv image_cfg self.cfg self.pca_vector self.images = t at hsave hlab hok
  obtain ⟨t1, t2, t3⟩ := t
  simp only at hsave hlab hok
  cases t1 with
  | error e =>
    simp only [Prod.mk.injEq] at hsave
    cases hsave.1
  | ok u =>
    simp only [Prod.mk.injEq, true_and] at hsave
    obtain ⟨vs, hall, henc⟩ := hok rfl
    refine ⟨vs, hall, ?_⟩
    rw [← hsave.2, ← hlab, henc]
    simp [Disk.write, Image.GetLabel]

/-- C1. A loader constructed with PCA off on which one `ReadData` call has returned (the
number of files it accepted fits an `int`), then `SaveFormattedData(p)` returning, every
formatted vector having a length that fits the `int` written before it: `ReadVector(p, ...)`
with empty containers yields as many vectors and as many labels as `GetNumImages()`, the
`i`-th vector is the formatted vector of the `i`-th stored image and the `i`-th label is
that image's label. -/
theorem save_then_load_round_trip (cv : Cv) (fs : FileSystem) (path : String)
    (num_categories : Int) (cfg : ProcessingConfiguration) (extensions : List String)
    (image_cfg0 image_cfg1 image_cfg2 image_cfg3 : ProcessingConfiguration)
    (self self1 self2 : DataLoader) (random_shuffle : Bool) (n : Int) (p : String)
    (disk disk2 : Disk) (junk : float)
    (hnew : DataLoader.create path num_categories cfg extensions image_cfg0 =
      (.ok self, image_cfg1))
    (hpca : cfg.pca = false)
    (hread : self.ReadData cv fs image_cfg2 random_shuffle = (.ok n, self1))
    (hfit : total_accepted fs self < 2147483648)
    (hlen : ∀ img ∈ self1.images, ∀ v,
      (img.ProcesssAndFormatData cv image_cfg3).1 = .ok (some v) → v.length < 2147483648)
    (hsave : self1.SaveFormattedData cv image_cfg3 p disk = (.ok (), self2, disk2)) :
    ∃ data labels, ReadVector disk2 p junk [] [] = .ok (data, labels) ∧
      (data.length : Int) = self1.GetNumImages ∧ (labels.length : Int) = self1.GetNumImages ∧
      List.Forall₂ (fun img v => (img.ProcesssAndFormatData cv image_cfg3).1 = .ok (some v))
        self1.images data ∧
      labels = self1.images.map Image.GetLabel := by
  have hself := create_ok _ _ _ _ _ _ _ hnew
  have h1 : (self.ReadData cv fs image_cfg2 random_shuffle).1 = .ok n := by rw [hread]
  obtain ⟨hloop, hnum, hperm, hcfg, htot⟩ :=
    ReadData_ok_spec cv fs image_cfg2 self random_shuffle n h1
  rw [hread] at hnum hperm hcfg
  simp only at hnum hperm hcfg
  have himgs : self.images = [] := by rw [hself]
  have hcfg0 : self.cfg = cfg := by rw [hself]
  rw [himgs, List.map_nil, List.nil_append] at hperm
  have hcount : self1.images.length = total_accepted fs self := by
    have := hperm.length_eq
    rwa [List.length_map, length_scan_labels] at this
  have hpca1 : self1.cfg.pca = false := by rw [hcfg, hcfg0, hpca]
  have hcats := num_categories_le_total fs image_cfg2 self n hloop
  have hrange : ∀ l ∈ self1.images.map Image.GetLabel, -2147483648 ≤ l ∧ l < 2147483648 := by
    intro l hl
    obtain ⟨i, hi, hlt⟩ := mem_scan_labels fs self l (hperm.mem_iff.mp hl)
    omega
  obtain ⟨vs, hall, hfile⟩ := SaveFormattedData_ok_spec cv image_cfg3 self1 self2 p disk disk2
    hpca1 hsave
  have hvs : vs.length = self1.images.length := hall.length_eq.symm
  have hvlen : ∀ v ∈ vs, v.length < 2147483648 := by
    intro v hv
    obtain ⟨img, himg, hrel⟩ := forall₂_mem_right hall v hv
    exact hlen img himg v hrel
  have hsize : int_of_bits (bits_of_int self1.num_images) = (vs.length : Int) := by
    rw [hnum, htot hfit, hvs, hcount]
    exact int_of_bits_bits_of_int _ (by omega) (by omega)
  obtain ⟨f1, hrec⟩ := read_records_exact vs hvlen junk
    ((self1.images.map Image.GetLabel).map bits_of_int)
  have hlab := read_labels_exact (self1.images.map Image.GetLabel) hrange []
  rw [List.append_nil, List.length_map, ← hvs] at hlab
  refine ⟨vs, self1.images.map Image.GetLabel, ?_, ?_, ?_, hall, rfl⟩
  · unfold ReadVector
    simp only [hfile, Option.getD_some, read_int, hsize, Int.toNat_ofNat, vector_resize_nil,
      hrec, hlab]
    rw [if_neg (by omega)]
  · unfold DataLoader.GetNumImages
    rw [hnum, htot hfit, hvs, hcount]
  · unfold DataLoader.GetNumImages
    rw [hnum, htot hfit, List.length_map, hcount]

/-- C1, applied to the corpus of two folders with one 1x1 image each: the file read back
holds the two one-element vectors and the labels 0 and 1. -/
theorem save_then_load_round_trip_witness :
    (loader_for ProcessingConfiguration.default).ReadData Cv.plain (corpus 1)
        (image_cfg_for ProcessingConfiguration.default) false =
      (.ok 2, loaded 1 ProcessingConfiguration.default) ∧
    (saved ProcessingConfiguration.default).1 = .ok () ∧
    ∃ data labels,
      ReadVector (saved ProcessingConfiguration.default).2.2 "data.bin" ⟨0, by decide⟩ [] [] =
        .ok (data, labels) ∧
      (data.length : Int) = (loaded 1 ProcessingConfiguration.default).GetNumImages ∧
      (labels.length : Int) = (loaded 1 ProcessingConfiguration.default).GetNumImages ∧
      List.Forall₂
        (fun img v => (img.ProcesssAndFormatData Cv.plain
          (image_cfg_for ProcessingConfiguration.default)).1 = .ok (some v))
        (loaded 1 ProcessingConfiguration.default).images data ∧
      labels = (loaded 1 ProcessingConfiguration.default).images.map Image.GetLabel := by
  refine ⟨by decide, by decide, ?_⟩
  refine save_then_load_round_trip Cv.plain (corpus 1) "root/" 2 ProcessingConfiguration.default
    default_extensions Image_cfg_initial (image_cfg_for ProcessingConfiguration.default)
    (image_cfg_for ProcessingConfiguration.default) (image_cfg_for ProcessingConfiguration.default)
    (loader_for ProcessingConfiguration.default) (loaded 1 ProcessingConfiguration.default)
    (saved ProcessingConfiguration.default).2.1 false 2 "data.bin" (fun _ => none)
    (saved ProcessingConfiguration.default).2.2 ⟨0, by decide⟩
    (by decide) (by decide) (by decide) (by decide) ?_ ?_
  · intro img himg v hv
    have himgs : (loaded 1 ProcessingConfiguration.default).images =
        [{ original := Mat.blank 1 1 1, processed := none, formatted := none, label := 0 },
         { original := Mat.blank 1 1 1, processed := none, formatted := none, label := 1 }] := by
      decide
    rw [himgs] at himg
    simp only [List.mem_cons, List.mem_singleton, List.mem_nil_iff, or_false] at himg
    rcases himg with rfl | rfl
    · have h0 : (Image.ProcesssAndFormatData Cv.plain
          (image_cfg_for ProcessingConfiguration.default)
          { original := Mat.blank 1 1 1, processed := none, formatted := none, label := 0 }).1 =
          .ok (some [⟨0, by decide⟩]) := by decide
      rw [h0] at hv
      simp only [Except.ok.injEq, Option.some.injEq] at hv
      rw [← hv]
      decide
    · have h0 : (Image.ProcesssAndFormatData Cv.plain
          (image_cfg_for ProcessingConfiguration.default)
          { original := Mat.blank 1 1 1, processed := none, formatted := none, label := 1 }).1 =
          .ok (some [⟨0, by decide⟩]) := by decide
      rw [h0] at hv
      simp only [Except.ok.injEq, Option.some.injEq] at hv
      rw [← hv]
      decide
  · have h1 : (saved ProcessingConfiguration.default).1 = .ok () := by decide
    rw [← h1]
    rfl

/-! ## Filters, configuration and the processing pipeline -/

/-- C11, on the code: `Filter` never converts to grayscale. For every 8-bit matrix with three
channels and every filter type the call returns a matrix that still has three channels. -/
theorem Filter_keeps_three_channels (cv : Cv) (m : Mat) (f : FilterType) :
    ∃ m1, Filter cv { m with depth := Depth.CV_8U, channels := 3 } f = .ok m1 ∧
      m1.channels = 3 := by
  unfold Filter
  by_cases hs : f = sobel
  · have hm : f ≠ median := by rw [hs]; decide
    have hg : f ≠ gaussian := by rw [hs]; decide
    simp [hs, Sobel, addWeighted, convertScaleAbs, median, gaussian, sobel]
  · by_cases hm : f = median
    · have hg : f ≠ gaussian := by rw [hm]; decide
      simp [hs, hm, medianBlur, median, gaussian, sobel]
    · by_cases hg : f = gaussian
      · simp [hs, hm, hg, GaussianBlur, median, gaussian, sobel]
      · simp [hs, hm, hg]

/-- C13. `Image::SetCfg` throws `std::invalid_argument` exactly when the format of the new
configuration is neither `CV_LOAD_IMAGE_COLOR` nor `CV_LOAD_IMAGE_GRAYSCALE`
(`CV_LOAD_IMAGE_UNCHANGED` is rejected); for the two valid formats it returns and the new
configuration is installed. -/
theorem SetCfg_rejects_exactly_invalid_formats (new_cfg : ProcessingConfiguration) :
    ((∃ what, (SetCfg new_cfg).1 = .error (Error.invalid_argument what)) ↔
      (new_cfg.format ≠ CV_LOAD_IMAGE_COLOR ∧ new_cfg.format ≠ CV_LOAD_IMAGE_GRAYSCALE)) ∧
    ((new_cfg.format = CV_LOAD_IMAGE_COLOR ∨ new_cfg.format = CV_LOAD_IMAGE_GRAYSCALE) →
      SetCfg new_cfg = (.ok (), new_cfg)) ∧
    (∃ what, (SetCfg { new_cfg with format := CV_LOAD_IMAGE_UNCHANGED }).1 =
      .error (Error.invalid_argument what)) := by
  refine ⟨⟨?_, ?_⟩, ?_, ?_⟩
  · rintro ⟨what, h⟩
    unfold SetCfg at h
    split at h
    · assumption
    · cases h
  · intro h
    unfold SetCfg
    rw [if_pos h]
    exact ⟨_, rfl⟩
  · intro h
    unfold SetCfg
    rw [if_neg]
    intro hne
    rcases h with h | h
    · exact hne.1 h
    · exact hne.2 h
  · have h : CV_LOAD_IMAGE_UNCHANGED ≠ CV_LOAD_IMAGE_COLOR ∧
        CV_LOAD_IMAGE_UNCHANGED ≠ CV_LOAD_IMAGE_GRAYSCALE := by decide
    unfold SetCfg
    simp only
    rw [if_pos h]
    exact ⟨_, rfl⟩

/-- C13, applied: the colour configuration is installed, the same configuration with
`CV_LOAD_IMAGE_UNCHANGED` is rejected. -/
theorem SetCfg_rejects_exactly_invalid_formats_witness :
    SetCfg cfg_color = (.ok (), cfg_color) ∧
    ∃ what, (SetCfg { cfg_color with format := CV_LOAD_IMAGE_UNCHANGED }).1 =
      .error (Error.invalid_argument what) :=
  ⟨(SetCfg_rejects_exactly_invalid_formats cfg_color).2.1 (Or.inl rfl),
   (SetCfg_rejects_exactly_invalid_formats cfg_color).2.2⟩

theorem apply_filters_eq_foldlM (cv : Cv) (fs : List FilterType) :
    ∀ g : Mat, apply_filters cv fs g = fs.foldlM (fun g f => Filter cv g f) g := by
  induction fs with
  | nil => intro g; rfl
  | cons f fs ih =>
    intro g
    rw [List.foldlM_cons]
    unfold apply_filters
    cases h : Filter cv g f with
    | error e => rfl
    | ok g1 => exact ih g1

/-- C14. `Image::Process` is the pipeline of the specification: the luminance (the original,
or in colour mode the luminance of `ConvertToYuv`) goes through mean subtraction if the
mean flag is set, then through the configured filters in list order if the filter flag is
set, then through negation if the negative flag is set; in colour mode the chrominance
planes returned are those of `ConvertToYuv`; and with the filter flag clear the filter
list has no influence. -/
theorem Process_is_spec_pipeline (cv : Cv) (cfg : ProcessingConfiguration) (img : Image) :
    img.Process cv cfg = spec_Process cv cfg img.original ∧
    (cfg.filter = false → ∀ fs : List FilterType,
      img.Process cv { cfg with filter_types := fs } = img.Process cv cfg) := by
  have hmain : ∀ c : ProcessingConfiguration,
      img.Process cv c = spec_Process cv c img.original := by
    intro c
    have htail : ∀ (g0 : Mat) (color : Option Chrominances),
        (match (if c.mean then SubtractMean cv g0 else .ok g0) with
          | .error e => (.error e : Except Error (Mat × Option Chrominances))
          | .ok grayscale1 =>
            match (if c.filter then apply_filters cv c.filter_types grayscale1
                   else .ok grayscale1) with
            | .error e => .error e
            | .ok grayscale2 =>
              match (if c.negative then ConvertToNegative cv grayscale2
                     else .ok grayscale2) with
              | .error e => .error e
              | .ok grayscale3 => .ok (grayscale3, color)) =
          (spec_luminance cv c g0).map (fun g => (g, color)) := by
      intro g0 color
      unfold spec_luminance
      simp only [apply_filters_eq_foldlM, pure, Except.pure, bind, Except.bind]
      generalize (if c.mean = true then SubtractMean cv g0 else Except.ok g0) = r1
      cases r1 with
      | error e => rfl
      | ok a =>
        simp only
        generalize (if c.filter = true then
          List.foldlM (fun g f => Filter cv g f) a c.filter_types else Except.ok a) = r2
        cases r2 with
        | error e => rfl
        | ok b =>
          simp only
          generalize (if c.negative = true then ConvertToNegative cv b else Except.ok b) = r3
          cases r3 <;> rfl
    unfold Image.Process spec_Process
    by_cases hf : c.format = CV_LOAD_IMAGE_COLOR
    · simp only [hf, if_true]
      cases hy : ConvertToYuv cv img.original with
      | error e => rfl
      | ok yuv =>
        simp only
        rw [htail]
        rfl
    · simp only [hf, if_false]
      rw [htail]
  refine ⟨hmain cfg, ?_⟩
  intro hoff fs
  rw [hmain, hmain]
  unfold spec_Process spec_luminance
  simp [hoff]

/-- C14, applied: with the filter flag clear, a configured sobel filter does not change what
`Process` returns for a 2x2 grayscale image. -/
theorem Process_is_spec_pipeline_witness :
    (Image.mk (Mat.blank 2 2 1) none none 0).Process Cv.plain
        { Image_cfg_initial with filter_types := [sobel] } =
      (Image.mk (Mat.blank 2 2 1) none none 0).Process Cv.plain Image_cfg_initial :=
  (Process_is_spec_pipeline Cv.plain Image_cfg_initial
    (Image.mk (Mat.blank 2 2 1) none none 0)).2 rfl [sobel]

theorem SetCfg_snd (new_cfg : ProcessingConfiguration) : (SetCfg new_cfg).2 = new_cfg := by
  unfold SetCfg
  split <;> rfl

/-- C16, on the code: when the constructor returns, `Image::cfg` is the configuration passed
in with an empty filter list: the member initialiser `cfg(move(cfg))` has emptied the
parameter before the body hands it to `Image::SetCfg`. -/
theorem create_installs_moved_from_cfg (path : String) (num_categories : Int)
    (cfg : ProcessingConfiguration) (extensions : List String)
    (image_cfg0 : ProcessingConfiguration) (hcat : 2 ≤ num_categories) :
    (DataLoader.create path num_categories cfg extensions image_cfg0).2 =
      { cfg with filter_types := [] } := by
  have hset := SetCfg_snd { cfg with filter_types := [] }
  unfold DataLoader.create
  simp only
  rw [if_neg (by omega)]
  generalize SetCfg { cfg with filter_types := [] } = r at hset
  obtain ⟨r1, r2⟩ := r
  simp only at hset
  subst hset
  cases r1 <;> rfl

/-- C16, at the failing input: the configuration asks for the sobel filter; after
`DataLoader("root/", 2, cfg)` the installed configuration has the filter flag set and no
filter in its list. -/
theorem create_installs_moved_from_cfg_witness :
    cfg_sobel.filter_types = [sobel] ∧
    (DataLoader.create "root/" 2 cfg_sobel default_extensions Image_cfg_initial).2.filter = true ∧
    (DataLoader.create "root/" 2 cfg_sobel default_extensions Image_cfg_initial).2.filter_types
      = [] :=
  ⟨rfl, by decide,
   congrArg ProcessingConfiguration.filter_types
     (create_installs_moved_from_cfg "root/" 2 cfg_sobel default_extensions Image_cfg_initial
       (by decide))⟩

/-- C18, on the code: `Image::SetCfg` assigns `Image::cfg` before it checks the format, so
every call installs its argument; a call with `CV_LOAD_IMAGE_UNCHANGED` throws and leaves
that format, which is neither grayscale nor colour, installed. -/
theorem SetCfg_installs_before_it_checks (new_cfg : ProcessingConfiguration) :
    (SetCfg new_cfg).2 = new_cfg ∧
    (∃ what, (SetCfg { Image_cfg_initial with format := CV_LOAD_IMAGE_UNCHANGED }).1 =
      .error (Error.invalid_argument what)) ∧
    (SetCfg { Image_cfg_initial with format := CV_LOAD_IMAGE_UNCHANGED }).2.format =
      CV_LOAD_IMAGE_UNCHANGED ∧
    CV_LOAD_IMAGE_UNCHANGED ≠ CV_LOAD_IMAGE_GRAYSCALE ∧
    CV_LOAD_IMAGE_UNCHANGED ≠ CV_LOAD_IMAGE_COLOR := by
  refine ⟨?_, ?_, ?_, by decide, by decide⟩
  · unfold SetCfg
    split <;> rfl
  · have h : CV_LOAD_IMAGE_UNCHANGED ≠ CV_LOAD_IMAGE_COLOR ∧
        CV_LOAD_IMAGE_UNCHANGED ≠ CV_LOAD_IMAGE_GRAYSCALE := by decide
    unfold SetCfg
    simp only
    rw [if_pos h]
    exact ⟨_, rfl⟩
  · decide

/-- C19, on the code: `ReadVector` resizes the caller's containers and then appends. With a
file of one record `[7]` and label 5, and containers holding the vector `[9]` and the
label 3, the vector read back is `[9, 7]`; only the label is overwritten. -/
theorem ReadVector_appends_to_existing_vectors :
    ReadVector one_record_file "data.bin" ⟨0, by decide⟩ [[⟨9, by decide⟩]] [3] =
      .ok ([[⟨9, by decide⟩, ⟨7, by decide⟩]], [5]) := by
  decide

theorem total_squared_difference_self (a : List Nat) : total_squared_difference a a = 0 := by
  unfold total_squared_difference
  induction a with
  | nil => rfl
  | cons x xs ih =>
    simp only [List.zipWith_cons_cons, le_refl, if_true, Nat.sub_self, List.map_cons,
      List.sum_cons, Nat.mul_zero, Nat.cast_zero, zero_add]
    exact ih

/-- C12. `CompareImages(img, img)` returns `+infinity` for every image: both operands are
normalized in the same way, every element difference is 0, the total squared difference
is 0 and the branch `total_sq_diff <= 1e-10` is taken. -/
theorem CompareImages_same_image (cv : Cv) (img : Mat) :
    CompareImages cv img img = .ok PSNR.infinity := by
  unfold CompareImages
  simp only [ne_eq, not_true_eq_false, if_false, and_self, if_true,
    total_squared_difference_self]
  rw [if_pos (by norm_num)]

/-! ## Iteration and value ranges -/

/-- C15, on the code: the loader without PCA that holds two images after one `ReadData()`,
cursor at 0. The first `LoadNextImage()` call already ends in the PCA overload, which
dereferences the unset `processed`: it returns no vector and the cursor stays at 0, while
each stored image has a one-element formatted vector. -/
theorem LoadNextImage_epoch_returns_no_vector :
    (loaded 1 ProcessingConfiguration.default).images.length = 2 ∧
    (loaded 1 ProcessingConfiguration.default).GetNumImages = 2 ∧
    (loaded 1 ProcessingConfiguration.default).current_index = 0 ∧
    ((loaded 1 ProcessingConfiguration.default).LoadNextImage Cv.plain
        (image_cfg_for ProcessingConfiguration.default)).1 = .error Error.null_pointer ∧
    ((loaded 1 ProcessingConfiguration.default).LoadNextImage Cv.plain
        (image_cfg_for ProcessingConfiguration.default)).2.current_index = 0 ∧
    (loaded 1 ProcessingConfiguration.default).images.map
        (fun img => (img.ProcesssAndFormatData Cv.plain
          (image_cfg_for ProcessingConfiguration.default)).1) =
      [.ok (some [⟨0, by decide⟩]), .ok (some [⟨0, by decide⟩])] := by
  decide

theorem float_units_of_byte (p : Nat) (h : p < 256) :
    float_units ⟨float_div_256 (byte_float p) % 4294967296, Nat.mod_lt _ (by decide)⟩ =
      some ((p : Int) * units_of_256th) := by
  interval_cases p <;> rfl

theorem mem_row_floats (cv : Cv) (m : Mat) (x : float) (h : x ∈ row_floats cv m) :
    ∃ i k, i < m.rows ∧ k < m.cols ∧ x = cv.at_float m i k := by
  unfold row_floats at h
  obtain ⟨i, hi, hx⟩ := List.mem_flatMap.mp h
  obtain ⟨k, hk, rfl⟩ := List.mem_map.mp hx
  exact ⟨i, k, List.mem_range.mp hi, List.mem_range.mp hk, rfl⟩

theorem plane_in_unit_interval (cv : Cv) (hexact : cv.exact_on_bytes) (g : Mat) (H W : Nat)
    (hg : g.is_plane H W) :
    ∀ x ∈ row_floats cv (FormatMatForNn_out cv g), in_unit_interval x := by
  intro x hx
  obtain ⟨i, k, hi, hk, rfl⟩ := mem_row_floats cv _ x hx
  rw [FormatMatForNn_out_rows] at hi
  rw [FormatMatForNn_out_cols] at hk
  have h8 : g.is_CV_8U = true := by
    unfold Mat.is_CV_8U
    simp [hg.2.2.1, hg.2.2.2]
  obtain ⟨p, hp, hval⟩ := hexact g i k h8 hi hk
  refine ⟨_, hval, ?_, ?_⟩
  · unfold units_of_256th
    positivity
  · unfold units_of_256th units_of_one
    omega

theorem reference_exact_on_bytes : Cv.reference.exact_on_bytes := by
  intro m i k h8 _ _
  refine ⟨m.data.getD (i * m.cols + k) 0 % 256, by omega, ?_⟩
  have hout : (FormatMatForNn_out Cv.reference m).data =
      (m.data.map byte_float).map float_div_256 := by
    unfold FormatMatForNn_out
    rw [if_pos h8]
    rfl
  have hcols : (FormatMatForNn_out Cv.reference m).cols = m.cols :=
    FormatMatForNn_out_cols Cv.reference m
  have hread : Cv.reference.at_float (FormatMatForNn_out Cv.reference m) i k =
      ⟨float_div_256 (byte_float (m.data.getD (i * m.cols + k) 0 % 256)) % 4294967296,
        Nat.mod_lt _ (by decide)⟩ := by
    have hmod : ∀ q : Nat, byte_float (q % 256) = byte_float q := by
      intro q
      unfold byte_float
      rw [Nat.mod_mod]
    show (⟨(FormatMatForNn_out Cv.reference m).data.getD
        (i * (FormatMatForNn_out Cv.reference m).cols + k) 0 % 4294967296, _⟩ : float) = _
    rw [Fin.mk.injEq, hout, hcols, List.map_map, hmod]
    congr 1
    by_cases hidx : i * m.cols + k < m.data.length
    · rw [List.getD_eq_getElem _ _ (by simpa using hidx), List.getD_eq_getElem _ _ hidx]
      simp
    · rw [List.getD_eq_default _ _ (by simpa using hidx), List.getD_eq_default _ _ (by omega)]
      rfl
  rw [hread]
  have h := float_units_of_byte (m.data.getD (i * m.cols + k) 0 % 256) (Nat.mod_lt _ (by decide))
  rw [h]

/-- C17, as stated, fails: formatted with the PCA basis of the pixel values 0 and 2 (mean 1.0,
eigenvector 1.0), the image with pixel value 0 has the formatted vector `[-1.0]`; the
projected float plane is appended unchanged and -1.0 is not in `[0, 1]`. -/
theorem pca_formatted_vector_holds_minus_one :
    (dark_pixel.ProcesssAndFormatData_pca Cv.reference basis_of_0_and_2).1 =
      .ok (some [⟨3212836864, by decide⟩]) ∧
    float_units ⟨3212836864, by decide⟩ = some (-units_of_one) ∧
    ¬ in_unit_interval ⟨3212836864, by decide⟩ := by
  refine ⟨by decide, by decide, ?_⟩
  rintro ⟨u, hu, h0, _⟩
  have h : float_units ⟨3212836864, by decide⟩ = some (-units_of_one) := by decide
  rw [h] at hu
  simp only [Option.some.injEq] at hu
  rw [← hu] at h0
  unfold units_of_one at h0
  omega

/-- C17 (amended). `FormatMatForNn` appends, in row-major order, for an 8-bit plane the floats
of the plane converted to float and divided by 256, and for any other plane the floats of
the plane as it is. Consequently, on a backend that is exact on 8-bit planes, every element
of the vector the plain `ProcesssAndFormatData()` returns for a freshly constructed 8-bit
image (one channel in grayscale mode; three channels, at least 2x2, in colour mode) lies in
`[0, 1]`. -/
theorem formatted_values_normalized (cv : Cv) (cfg : ProcessingConfiguration) (m : Mat)
    (label : Int) (img : Image) (himg : Image.of_mat m label = .ok img)
    (hdepth : m.depth = Depth.CV_8U) (hexact : cv.exact_on_bytes) :
    (∀ (self : Image) (plane : Mat) (v : List float), self.formatted = some v →
      plane.is_CV_8U = true →
      self.FormatMatForNn cv plane =
        .ok { self with
              formatted := some (v ++ row_floats cv
                { plane with
                  depth := Depth.CV_32F
                  data := cv.divide_px
                    { plane with depth := Depth.CV_32F, data := cv.convertTo_px plane Depth.CV_32F }
                    256 }) }) ∧
    (∀ (self : Image) (plane : Mat) (v : List float), self.formatted = some v →
      plane.is_CV_8U = false →
      self.FormatMatForNn cv plane = .ok { self with formatted := some (v ++ row_floats cv plane) }) ∧
    (cfg.format = CV_LOAD_IMAGE_GRAYSCALE → m.channels = 1 →
      ∃ v, (img.ProcesssAndFormatData cv cfg).1 = .ok (some v) ∧ ∀ x ∈ v, in_unit_interval x) ∧
    (cfg.format = CV_LOAD_IMAGE_COLOR → m.channels = 3 → 2 ≤ m.rows → 2 ≤ m.cols →
      ∃ v, (img.ProcesssAndFormatData cv cfg).1 = .ok (some v) ∧ ∀ x ∈ v, in_unit_interval x) := by
  have himg2 : img = { original := m, processed := none, formatted := none, label := label } := by
    unfold Image.of_mat at himg
    split at himg
    · cases himg
    · simp only [Except.ok.injEq] at himg
      exact himg.symm
  subst himg2
  refine ⟨?_, ?_, ?_, ?_⟩
  · intro self plane v hv h8
    rw [FormatMatForNn_some cv self plane v hv]
    unfold FormatMatForNn_out
    rw [if_pos h8]
  · intro self plane v hv h8
    rw [FormatMatForNn_some cv self plane v hv]
    unfold FormatMatForNn_out
    rw [if_neg (by simp [h8])]
  · intro hf h1
    have hne : cfg.format ≠ CV_LOAD_IMAGE_COLOR := by rw [hf]; decide
    obtain ⟨g, hg, hp⟩ := Process_gray cv cfg
      { original := m, processed := none, formatted := some [], label := label } m.rows m.cols hne
      ⟨rfl, rfl, hdepth, h1⟩
    rw [ProcesssAndFormatData_fresh cv cfg _ g none rfl hg]
    refine ⟨_, rfl, ?_⟩
    intro x hx
    simp only [format_planes, List.append_nil] at hx
    exact plane_in_unit_interval cv hexact g _ _ hp x hx
  · intro hf h3 hr hc
    obtain ⟨g, c, hg, hp, hu, hv⟩ := Process_color cv cfg
      { original := m, processed := none, formatted := some [], label := label } hf h3 hdepth hr hc
    rw [ProcesssAndFormatData_fresh cv cfg _ g (some c) rfl hg]
    refine ⟨_, rfl, ?_⟩
    intro x hx
    simp only [format_planes, List.mem_append] at hx
    rcases hx with hx | hx | hx
    · exact plane_in_unit_interval cv hexact g _ _ hp x hx
    · exact plane_in_unit_interval cv hexact c.u _ _ hu x hx
    · exact plane_in_unit_interval cv hexact c.v _ _ hv x hx

/-- C17 (amended), applied on the exact backend to the 1x2 grayscale image with the pixel
values 0 and 255: the formatted vector is `[0.0, 255/256]` (bits `0` and `0x3F7F0000`). -/
theorem formatted_values_normalized_witness :
    Cv.reference.exact_on_bytes ∧
    ((Image.mk black_and_white none none 0).ProcesssAndFormatData Cv.reference
        Image_cfg_initial).1 = .ok (some [⟨0, by decide⟩, ⟨1065287680, by decide⟩]) ∧
    float_units ⟨1065287680, by decide⟩ = some (255 * units_of_256th) ∧
    ∃ v, ((Image.mk black_and_white none none 0).ProcesssAndFormatData Cv.reference
        Image_cfg_initial).1 = .ok (some v) ∧ ∀ x ∈ v, in_unit_interval x :=
  ⟨reference_exact_on_bytes, by decide, by decide,
   (formatted_values_normalized Cv.reference Image_cfg_initial black_and_white 0
      (Image.mk black_and_white none none 0) (by decide) (by decide)
      reference_exact_on_bytes).2.2.1 (by decide) (by decide)⟩


end ImgPre
